import Mathlib

/-!
Shallow embedding of the minedb storage engine (buffer pool manager, clock
replacer, linear-probe hash index) and proofs about the claims of its
specification.

Machine integers (`usize` / `u64` on a 64-bit target) are modelled as `Nat`
with explicit wrap-around `% 2^64` where overflow matters (release-profile
two's-complement wrapping semantics).  Fallible Rust code returning
`io::Result` is modelled with an explicit result type; a `.unwrap()` of an
`Err` value is modelled as a `panicked` outcome.
-/

namespace MineDB

/-- Width of `usize`/`u64` on the 64-bit target. -/
def U64 : Nat := 2 ^ 64

/-- Wrapping `x + 1` on a 64-bit unsigned integer. -/
def usizeAdd1 (n : Nat) : Nat := (n + 1) % U64

/-- Wrapping `x - 1` on a 64-bit unsigned integer (`0 - 1` wraps to `2^64 - 1`). -/
def usizeSub1 (n : Nat) : Nat := (n + (U64 - 1)) % U64

theorem usizeAdd1_eq (n : Nat) (h : n + 1 < U64) : usizeAdd1 n = n + 1 := by
  simp [usizeAdd1, Nat.mod_eq_of_lt h]

theorem usizeSub1_eq (n : Nat) (h0 : 0 < n) (h : n < U64) : usizeSub1 n = n - 1 := by
  unfold usizeSub1 U64 at *
  omega

/-! ## Clock replacer (`src/buffer/replacer.rs`)

State per frame is an `i8` marker: `NO_FRAME = -1` (absent), `REF_ZERO = 0`,
`REF_ONE = 1`, plus the hand (`last`) and the count of present frames
(`size`).  The single mutex / atomics of the Rust code serialize every
operation, so the embedding is the sequential state transformer. -/

def NO_FRAME : Int := -1
def REF_ZERO : Int := 0
def REF_ONE : Int := 1

structure ClockReplacer where
  size : Nat
  last : Nat
  frameHolder : List Int
deriving DecidableEq

namespace ClockReplacer

/-- `ClockReplacer::new`. -/
def new (n : Nat) : ClockReplacer :=
  { size := 0, last := 0, frameHolder := List.replicate n NO_FRAME }

/-- Number of non-`NO_FRAME` markers; the quantity the `size` field tracks
(invariant I7 of the spec). -/
def countPresent (l : List Int) : Nat := l.countP (fun m => m ≠ NO_FRAME)

/-- The sweep of `ClockReplacer::victim`: starting at `last`, return the first
`REF_ZERO` slot (marking it `NO_FRAME`), demote `REF_ONE` slots to `REF_ZERO`
and advance past anything else, wrapping at the end of the array.  The Rust
`loop` is unbounded; `fuel` bounds the number of iterations of the embedding
and `none` means the loop is still running after `fuel` iterations. -/
def sweep : List Int → Nat → Nat → Option (Nat × List Int)
  | _, _, 0 => none
  | frames, last, fuel + 1 =>
    if frames.getD last NO_FRAME = REF_ZERO then
      some (last, frames.set last NO_FRAME)
    else
      sweep (if frames.getD last NO_FRAME = REF_ONE then frames.set last REF_ZERO else frames)
        (if last + 1 = frames.length then 0 else last + 1) fuel

/-- `ClockReplacer::victim`.  Returns the chosen frame id (if any) and the new
replacer state.  `2 * n + 1` iterations always suffice for the Rust loop (see
`sweep_present_succeeds`), so the fuel is not observable. -/
def victim (r : ClockReplacer) : Option Nat × ClockReplacer :=
  if r.size = 0 then (none, r)
  else
    match sweep r.frameHolder r.last (2 * r.frameHolder.length + 1) with
    | some (fid, frames') =>
      (some fid, { size := usizeSub1 r.size, last := fid, frameHolder := frames' })
    | none => (none, r)

/-- `ClockReplacer::pin`. -/
def pin (r : ClockReplacer) (fid : Nat) : ClockReplacer :=
  if r.frameHolder.getD fid NO_FRAME ≠ NO_FRAME then
    { r with frameHolder := r.frameHolder.set fid NO_FRAME, size := usizeSub1 r.size }
  else r

/-- `ClockReplacer::unpin`. -/
def unpin (r : ClockReplacer) (fid : Nat) : ClockReplacer :=
  let newSize := if r.frameHolder.getD fid NO_FRAME = NO_FRAME then usizeAdd1 r.size else r.size
  { r with size := newSize, frameHolder := r.frameHolder.set fid REF_ONE }

end ClockReplacer

/-! ## Page frame (`src/storage/page/page.rs`) -/

def PAGE_SIZE : Nat := 4096
def INVALID_PAGE_ID : Nat := U64 - 1

structure Page where
  id : Nat
  pinCount : Nat
  dirtyFlag : Bool
  data : List Nat
deriving DecidableEq

def EMPTY_PAGE : Page :=
  { id := INVALID_PAGE_ID, pinCount := 0, dirtyFlag := false,
    data := List.replicate PAGE_SIZE 0 }

namespace Page

def setId (p : Page) (pid : Nat) : Page := { p with id := pid }

def setDirty (p : Page) (isDirty : Bool) : Page := { p with dirtyFlag := isDirty }

/-- `Page::pin` (`self.pin_count += 1` on a `u64`). -/
def pin (p : Page) : Page := { p with pinCount := usizeAdd1 p.pinCount }

/-- `Page::unpin` (`self.pin_count -= 1` on a `u64`, wrapping at zero). -/
def unpin (p : Page) : Page := { p with pinCount := usizeSub1 p.pinCount }

end Page

/-! ## Disk abstraction (`src/storage/disk/disk_manager.rs`)

The `DiskManager` trait is polymorphic (the buffer-pool tests substitute
mocks).  The buffer-pool claims each perform at most one call per operation
kind, so the trait is embedded as an oracle fixing the outcome of each
operation; an `Except.error` models an `Err` result from the disk. -/

structure DiskManager where
  writePage : Nat → List Nat → Except String Unit
  readPage : Nat → Except String (List Nat)
  allocatePage : Except String Nat
  deallocatePage : Nat → Except String Bool

/-! ## Buffer pool manager (`src/buffer/buffer_pool_manager.rs`) -/

structure BufferPoolManager where
  pageTable : List (Nat × Nat)
  freeList : List Nat
  bufferPool : List Page
  replacer : ClockReplacer
deriving DecidableEq

/-- Outcome of a buffer-pool operation: a returned value with the post state
(the mutations through `&mut self` that the caller observes), an `Err`
returned to the caller with the post state, or a panic (a Rust `.unwrap()` of
an `Err`), after which no state is observable. -/
inductive PoolOut (α : Type) where
  | ok : α → BufferPoolManager → PoolOut α
  | err : String → BufferPoolManager → PoolOut α
  | panicked : PoolOut α
deriving DecidableEq

/-- Point lookup in the page table (`DashMap::get`). -/
def ptGet (t : List (Nat × Nat)) (k : Nat) : Option Nat :=
  (t.find? (fun e => e.1 = k)).map (fun e => e.2)

/-- `DashMap::remove`. -/
def ptRemove (t : List (Nat × Nat)) (k : Nat) : List (Nat × Nat) :=
  t.filter (fun e => e.1 ≠ k)

/-- `DashMap::insert` (replaces any existing entry for the key). -/
def ptInsert (t : List (Nat × Nat)) (k v : Nat) : List (Nat × Nat) :=
  (k, v) :: ptRemove t k

namespace BufferPoolManager

/-- `build_full_free_list`: the bounded queue is filled with
`pool_size - i - 1` for `i = 0, ..`, so frame `pool_size - 1` is issued
first (pops take the list head). -/
def buildFullFreeList (n : Nat) : List Nat :=
  (List.range n).map (fun i => n - i - 1)

/-- `BufferPoolManager::new_default` (page pool of `EMPTY_PAGE`s). -/
def newDefault (poolSize : Nat) : BufferPoolManager :=
  { pageTable := [], freeList := buildFullFreeList poolSize,
    bufferPool := List.replicate poolSize EMPTY_PAGE,
    replacer := ClockReplacer.new poolSize }

/-- `get_available_frame`: pop the free list first; otherwise ask the replacer
for a victim, failing with the out-of-memory error if there is none. -/
def getAvailableFrame (bpm : BufferPoolManager) : PoolOut Nat :=
  match bpm.freeList with
  | fid :: rest => .ok fid { bpm with freeList := rest }
  | [] =>
    match bpm.replacer.victim with
    | (some fid, rep') => .ok fid { bpm with replacer := rep' }
    | (none, rep') => .err "Out of memory to allocate page." { bpm with replacer := rep' }

/-- `update_page`: pin the frame in the replacer, write back a dirty victim
(the Rust code `.unwrap()`s the disk write, so a write error panics), swap the
page-table entries, retag and pin the frame, and (unless the page is new) read
its contents from disk (again `.unwrap()`ed).  Returns the frame id standing
for the returned `&RwLock<Page>`. -/
def updatePage (dm : DiskManager) (bpm : BufferPoolManager) (fid newPid : Nat)
    (newPage : Bool) : PoolOut Nat :=
  let rep' := bpm.replacer.pin fid
  let page := bpm.bufferPool.getD fid EMPTY_PAGE
  let writeBack : Option Page :=
    if page.dirtyFlag then
      match dm.writePage page.id page.data with
      | .error _ => none
      | .ok _ => some (page.setDirty false)
    else some page
  match writeBack with
  | none => .panicked
  | some page1 =>
    let pt' := ptInsert (ptRemove bpm.pageTable page1.id) newPid fid
    let page2 := (page1.setId newPid).pin
    let readIn : Option Page :=
      if newPage then some page2
      else
        match dm.readPage newPid with
        | .error _ => none
        | .ok d => some { page2 with data := d }
    match readIn with
    | none => .panicked
    | some page3 =>
      .ok fid { bpm with pageTable := pt',
                         bufferPool := bpm.bufferPool.set fid page3,
                         replacer := rep' }

/-- `BufferPoolManager::fetch_page`. -/
def fetchPage (dm : DiskManager) (bpm : BufferPoolManager) (pid : Nat) :
    PoolOut Nat :=
  match ptGet bpm.pageTable pid with
  | some fid =>
    let rep' := bpm.replacer.pin fid
    let page := (bpm.bufferPool.getD fid EMPTY_PAGE).pin
    .ok fid { bpm with replacer := rep', bufferPool := bpm.bufferPool.set fid page }
  | none =>
    match bpm.getAvailableFrame with
    | .ok fid bpm' => updatePage dm bpm' fid pid false
    | .err e s => .err e s
    | .panicked => .panicked

/-- `BufferPoolManager::unpin_page`: on a resident page, decrement the frame's
pin count, assign the dirty flag from `is_dirty`, hand the frame to the
replacer, and return `true`; otherwise return `false`. -/
def unpinPage (bpm : BufferPoolManager) (pid : Nat) (isDirty : Bool) :
    Bool × BufferPoolManager :=
  match ptGet bpm.pageTable pid with
  | some fid =>
    let page := ((bpm.bufferPool.getD fid EMPTY_PAGE).unpin).setDirty isDirty
    (true, { bpm with bufferPool := bpm.bufferPool.set fid page,
                      replacer := bpm.replacer.unpin fid })
  | none => (false, bpm)

/-- `BufferPoolManager::new_page`. -/
def newPage (dm : DiskManager) (bpm : BufferPoolManager) : PoolOut Nat :=
  match bpm.getAvailableFrame with
  | .ok fid bpm' =>
    match dm.allocatePage with
    | .error e => .err e bpm'
    | .ok pid => updatePage dm bpm' fid pid true
  | .err e s => .err e s
  | .panicked => .panicked

/-- `BufferPoolManager::delete_page`.  The push onto the bounded free-list
queue is `.unwrap()`ed (capacity is the pool size), as is the write-back of a
dirty page.  The page-table entry is removed and the disk deallocation result
propagated in every non-panicking path. -/
def deletePage (dm : DiskManager) (bpm : BufferPoolManager) (pid : Nat) :
    PoolOut Bool :=
  let afterFrame : PoolOut Unit :=
    match ptGet bpm.pageTable pid with
    | some fid =>
      let page := bpm.bufferPool.getD fid EMPTY_PAGE
      if page.pinCount ≠ 0 then .err "Cannot delete page that is in use." bpm
      else
        let wrote : Option Unit :=
          if page.dirtyFlag then
            match dm.writePage page.id page.data with
            | .error _ => none
            | .ok _ => some ()
          else some ()
        match wrote with
        | none => .panicked
        | some _ =>
          if bpm.freeList.length < bpm.bufferPool.length then
            .ok () { bpm with freeList := bpm.freeList ++ [fid] }
          else .panicked
    | none => .ok () bpm
  match afterFrame with
  | .panicked => .panicked
  | .err e s => .err e s
  | .ok _ s =>
    let s' := { s with pageTable := ptRemove s.pageTable pid }
    match dm.deallocatePage pid with
    | .error e => .err e s'
    | .ok done => .ok done s'

end BufferPoolManager

/-! ## Byte-level serialization helpers

`bincode` with its default options encodes a `usize`/`u64` as 8 bytes
little-endian and a fixed-size `[u8; N]` struct field as its `N` bytes in
order with no length prefix. -/

/-- Little-endian 8-byte encoding of a `usize` (`bincode::serialize`). -/
def encodeU64 (n : Nat) : List Nat :=
  [n % 256, n / 256 % 256, n / 256 ^ 2 % 256, n / 256 ^ 3 % 256,
   n / 256 ^ 4 % 256, n / 256 ^ 5 % 256, n / 256 ^ 6 % 256, n / 256 ^ 7 % 256]

/-- Little-endian decoding of a byte list (`bincode::deserialize` of a
`usize` reads the 8 bytes of the slice). -/
def decodeU64 (l : List Nat) : Nat :=
  l.foldr (fun b acc => b + 256 * acc) 0

/-- Copy `bytes` over the front of the fixed-size buffer `old`
(`for i in 0..page_data.len() { raw_data[i] = page_data[i] }`). -/
def overwrite (old bytes : List Nat) : List Nat :=
  bytes ++ old.drop bytes.length

def zeroPage : List Nat := List.replicate PAGE_SIZE 0

/-! ## Hash table block page (`src/storage/page/hash_table_block_page.rs`)

The claims instantiate the generic `HashTableBlockPage<K, V>` the way the
repository's tests do: `K` is a 10-byte key and `V` a 20-byte value, each a
packed `[u8; N]`, so `size_of::<MappingType<K, V>>() = kSize + vSize`.  The
definitions stay parametric in `kSize`/`vSize`; a mapping cell is the pair of
the key bytes and the value bytes. -/

abbrev MappingType := List Nat × List Nat

structure HashTableBlockPage where
  occupied : List Nat
  readable : List Nat
  array : List MappingType
deriving DecidableEq

namespace HashTableBlockPage

/-- `capacity_of_block`: `4 * PAGE_SIZE / (4 * size_of::<MappingType>() + 1)`. -/
def capacityOfBlock (kSize vSize : Nat) : Nat :=
  4 * PAGE_SIZE / (4 * (kSize + vSize) + 1)

/-- Default mapping cell (`Default::default()` of the packed key/value pair:
all-zero bytes). -/
def defaultMapping (kSize vSize : Nat) : MappingType :=
  (List.replicate kSize 0, List.replicate vSize 0)

/-- `HashTableBlockPage::new`. -/
def new (kSize vSize : Nat) : HashTableBlockPage :=
  let capacity := capacityOfBlock kSize vSize
  { occupied := List.replicate ((capacity - 1) / 8 + 1) 0,
    readable := List.replicate ((capacity - 1) / 8 + 1) 0,
    array := List.replicate capacity (defaultMapping kSize vSize) }

/-- `HashTableBlockPage::serialize`: occupied bitmap, readable bitmap, then
every mapping cell back to back (no length prefixes). -/
def serialize (b : HashTableBlockPage) : List Nat :=
  b.occupied ++ b.readable ++ b.array.foldr (fun c acc => c.1 ++ c.2 ++ acc) []

/-- The `bincode::deserialize::<MappingType>` of the slice
`page_data[i..i+mapping_type_size]`. -/
def decodeMapping (kSize vSize i : Nat) (data : List Nat) : MappingType :=
  ((data.drop i).take kSize, (data.drop (i + kSize)).take vSize)

/-- The `array_bit_size` local of the block-page code: `(capacity - 1)/8 + 1`
bytes per bitmap. -/
def arrayBitSize (kSize vSize : Nat) : Nat := (capacityOfBlock kSize vSize - 1) / 8 + 1

/-- Number of iterations of the deserialize loop, which runs over
`2*array_bit_size .. (page_data.len()/mapping_type_size - 1)*mapping_type_size`
in steps of `mapping_type_size`: iteration `k` has
`i = 2*array_bit_size + k*ms`. -/
def numCells (kSize vSize len : Nat) : Nat :=
  ((len / (kSize + vSize) - 1) * (kSize + vSize) - 2 * arrayBitSize kSize vSize
    + (kSize + vSize) - 1) / (kSize + vSize)

/-- The mapping-array reconstruction of `HashTableBlockPage::deserialize`:
starting from a default-filled array of block capacity, iteration `k` of the
Rust loop assigns cell `(i - 2*array_bit_size)/ms = k` from the slice at
`i = 2*array_bit_size + k*ms`. -/
def deserializeCells (kSize vSize : Nat) (data : List Nat) : List MappingType :=
  (List.range (numCells kSize vSize data.length)).foldl
    (fun arr k =>
      arr.set k (decodeMapping kSize vSize (2 * arrayBitSize kSize vSize + k * (kSize + vSize))
        data))
    (List.replicate (capacityOfBlock kSize vSize) (defaultMapping kSize vSize))

/-- `HashTableBlockPage::deserialize`. -/
def deserialize (kSize vSize : Nat) (data : List Nat) : HashTableBlockPage :=
  { occupied := data.take (arrayBitSize kSize vSize),
    readable := (data.drop (arrayBitSize kSize vSize)).take (arrayBitSize kSize vSize),
    array := deserializeCells kSize vSize data }

/-- The private `occupied` test: `occupied[byte_idx] | !(0x01 << bit_idx) == 0xff`
(the complement is on a `u8`, so `!(1 << b) = 255 - (1 <<< b)` for `b < 8`). -/
def isOccupied (b : HashTableBlockPage) (slotIdx : Nat) : Bool :=
  (b.occupied.getD (slotIdx / 8) 0 ||| (255 - (1 <<< (slotIdx % 8)))) == 255

/-- The private `set`: `occupied[byte_idx] |= 0x01 << bit_idx`.  Only the
`occupied` bitmap is written; `readable` is untouched. -/
def setOccupiedBit (b : HashTableBlockPage) (slotIdx : Nat) : HashTableBlockPage :=
  { b with occupied :=
      b.occupied.set (slotIdx / 8) (b.occupied.getD (slotIdx / 8) 0 ||| (1 <<< (slotIdx % 8))) }

/-- `HashTableBlockPage::insert`. -/
def insert (b : HashTableBlockPage) (slotIdx : Nat) (key value : List Nat) :
    Bool × HashTableBlockPage :=
  if b.isOccupied slotIdx then (false, b)
  else (true, setOccupiedBit { b with array := b.array.set slotIdx (key, value) } slotIdx)

/-- `HashTableBlockPage::get`. -/
def get (kSize vSize : Nat) (b : HashTableBlockPage) (slotIdx : Nat) : MappingType :=
  b.array.getD slotIdx (defaultMapping kSize vSize)

end HashTableBlockPage

/-! ## Hash table header page (`src/storage/page/hash_table_header_page.rs`) -/

/-- `BLOCK_PAGE_IDS_SIZE = (PAGE_SIZE - size_of::<BasicInfo>()) / size_of::<PageId>()`
with `BasicInfo` three `usize` fields. -/
def BLOCK_PAGE_IDS_SIZE : Nat := (PAGE_SIZE - 3 * 8) / 8

structure HashTableHeaderPage where
  pageId : Nat
  size : Nat
  nextIdx : Nat
  blockPageIds : List Nat
deriving DecidableEq

namespace HashTableHeaderPage

/-- `HashTableHeaderPage::new`. -/
def new (pid size : Nat) : HashTableHeaderPage :=
  { pageId := pid, size := size, nextIdx := 0,
    blockPageIds := List.replicate BLOCK_PAGE_IDS_SIZE INVALID_PAGE_ID }

/-- `HashTableHeaderPage::serialize`: the `BasicInfo` struct followed by every
directory entry, all `bincode`-encoded `usize`s. -/
def serialize (h : HashTableHeaderPage) : List Nat :=
  encodeU64 h.pageId ++ encodeU64 h.size ++ encodeU64 h.nextIdx ++
    h.blockPageIds.foldr (fun pid acc => encodeU64 pid ++ acc) []

/-- Number of iterations of the header deserialize loop, which runs over
`basic_info_size .. page_data.len() - page_id_size` in steps of 8: iteration
`k` reads the entry at `i = 24 + 8*k`. -/
def headerNumIds (len : Nat) : Nat := (len - 8 - 24 + 7) / 8

/-- The directory reconstruction of `HashTableHeaderPage::deserialize`:
starting from `[INVALID_PAGE_ID; BLOCK_PAGE_IDS_SIZE]`, iteration `k` of the
Rust loop assigns entry `(i - basic_info_size)/8 = k` from the 8-byte slice at
`i = 24 + 8*k`. -/
def headerIds (data : List Nat) : List Nat :=
  (List.range (headerNumIds data.length)).foldl
    (fun arr k => arr.set k (decodeU64 ((data.drop (24 + 8 * k)).take 8)))
    (List.replicate BLOCK_PAGE_IDS_SIZE INVALID_PAGE_ID)

/-- `HashTableHeaderPage::deserialize`.  Returns `none` for the `Err` taken
when the input is not exactly `PAGE_SIZE` bytes. -/
def deserialize (data : List Nat) : Option HashTableHeaderPage :=
  if data.length ≠ PAGE_SIZE then none
  else
    some { pageId := decodeU64 (data.take 8),
           size := decodeU64 ((data.drop 8).take 8),
           nextIdx := decodeU64 ((data.drop 16).take 8),
           blockPageIds := headerIds data }

/-- Modelled from the spec: `HashTableHeaderPage::get_block_page_id` is called
by the insert loop (`header.get_block_page_id(next_block_idx)`) but its body
is not under `src/`; per the spec a directory entry is "either
`INVALID_PAGE_ID` or identifies an allocated block page", and the caller
treats the unset value as `None`. -/
def getBlockPageId (h : HashTableHeaderPage) (idx : Nat) : Option Nat :=
  let pid := h.blockPageIds.getD idx INVALID_PAGE_ID
  if pid = INVALID_PAGE_ID then none else some pid

/-- Modelled from the spec: `HashTableHeaderPage::set(block_pid, block_idx)`
is called by `insert_to_new_block` ("update the directory entry") but its body
is not under `src/`; it stores the block page id at the directory index. -/
def setBlockPageId (h : HashTableHeaderPage) (pid idx : Nat) : HashTableHeaderPage :=
  { h with blockPageIds := h.blockPageIds.set idx pid }

end HashTableHeaderPage

/-! ## Linear-probe hash table (`src/container/hash/linear_probe_hash_table.rs`)

The index drives all page traffic through the `BufferPoolManager`
(`fetch_page` / `new_page` / `unpin_page` with the default
`FakeDiskManager`, which allocates sequential page ids starting at 0 and
never fails while the pool is large enough).  For the index-level claims the
observable state is the page contents and the allocation order, so the
pool-plus-fake-disk composition is embedded as a page-id-indexed byte store
with sequential allocation; the pin/dirty bookkeeping never alters page
bytes.  Fresh pages are zero-filled as in the test regimes, where frames come
from the free list. -/

structure PageStore where
  pages : List (Nat × List Nat)
  nextPid : Nat
deriving DecidableEq

namespace PageStore

/-- Contents of page `pid` as `fetch_page` exposes them. -/
def getPage (s : PageStore) (pid : Nat) : List Nat :=
  match s.pages.find? (fun e => e.1 = pid) with
  | some e => e.2
  | none => zeroPage

def setPage (s : PageStore) (pid : Nat) (d : List Nat) : PageStore :=
  { s with pages := (pid, d) :: s.pages.filter (fun e => e.1 ≠ pid) }

/-- `new_page` through the pool: a fresh zero page under the next sequential
page id. -/
def allocPage (s : PageStore) : Nat × PageStore :=
  (s.nextPid, { pages := (s.nextPid, zeroPage) :: s.pages, nextPid := s.nextPid + 1 })

end PageStore

/-- Mirror of the `FindSlotResult` enum of `src/container/hash/mod.rs`. -/
inductive FindSlotResult (α : Type) where
  | NotFound : FindSlotResult α
  | Duplicated : FindSlotResult α
  | Found : α → FindSlotResult α
deriving DecidableEq

namespace LinearProbeHashTable

open HashTableBlockPage

/-- `LinearProbeHashTable::new`: allocate the header page and copy the
serialized fresh header onto it (the page stays in the pool; contents are
observable through it). -/
def newTable (numBuckets : Nat) (s : PageStore) : Nat × PageStore :=
  let (pid, s1) := s.allocPage
  let header := HashTableHeaderPage.new pid numBuckets
  (pid, s1.setPage pid (overwrite (s1.getPage pid) header.serialize))

/-- `get_header`: fetch the header page and deserialize it (`none` models the
`.unwrap()` panic on a deserialize error). -/
def getHeader (s : PageStore) (headerPid : Nat) : Option HashTableHeaderPage :=
  HashTableHeaderPage.deserialize (s.getPage headerPid)

/-- `get_block`: fetch a block page and deserialize it. -/
def getBlock (kSize vSize : Nat) (s : PageStore) (blockPid : Nat) : HashTableBlockPage :=
  HashTableBlockPage.deserialize kSize vSize (s.getPage blockPid)

/-- `LinearProbeHashTable::update_page`: fetch (or newly allocate) the page,
copy `page_data` over the front of its buffer, unpin it dirty. -/
def updatePage (s : PageStore) (pidOption : Option Nat) (pageData : List Nat) :
    Nat × PageStore :=
  match pidOption with
  | some pid => (pid, s.setPage pid (overwrite (s.getPage pid) pageData))
  | none =>
    let (pid, s1) := s.allocPage
    (pid, s1.setPage pid (overwrite (s1.getPage pid) pageData))

/-- `insert_to_new_block`: build a fresh block holding the pair at
`block_offset`, persist it to a new page, point the directory entry at it and
write the header back. -/
def insertToNewBlock (kSize vSize : Nat) (s : PageStore) (k v : List Nat)
    (header : HashTableHeaderPage) (blockIdx blockOffset : Nat) :
    HashTableHeaderPage × PageStore :=
  let newBlock := (HashTableBlockPage.new kSize vSize).insert blockOffset k v
  let (blockPid, s1) := updatePage s none newBlock.2.serialize
  let header' := header.setBlockPageId blockPid blockIdx
  let (_, s2) := updatePage s1 (some header'.pageId) header'.serialize
  (header', s2)

/-- `find_available_slot`: scan the block from `block_offset` to the capacity,
returning the first unoccupied slot, `Duplicated` on an equal pair, or
`NotFound` when the block is exhausted.  The Rust `for` loop is embedded as a
structural recursion on the remaining slots. -/
def findSlotFrom (kSize vSize : Nat) (block : HashTableBlockPage) (k v : List Nat) :
    Nat → Nat → FindSlotResult (HashTableBlockPage × Nat)
  | _, 0 => .NotFound
  | i, remaining + 1 =>
    if ¬ block.isOccupied i then .Found (block, i)
    else if get kSize vSize block i = (k, v) then .Duplicated
    else findSlotFrom kSize vSize block k v (i + 1) remaining

def findAvailableSlot (kSize vSize : Nat) (s : PageStore) (k v : List Nat)
    (blockPid blockOffset : Nat) : FindSlotResult (HashTableBlockPage × Nat) :=
  let block := getBlock kSize vSize s blockPid
  findSlotFrom kSize vSize block k v blockOffset
    (capacityOfBlock kSize vSize - blockOffset)

/-- `try_insert_to_appropriate_slot`: the unbounded Rust `loop`, with `fuel`
bounding the number of iterations of the embedding; `none` means the loop is
still running after `fuel` iterations.  On `NotFound` the block index
advances with wrap-around at `header.get_size()` and the offset restarts at
0 ("temporary ignore hash table all fulled" — there is no exit for a full
table). -/
def tryInsertLoop (kSize vSize : Nat) (k v : List Nat) :
    Nat → PageStore → HashTableHeaderPage → Nat → Nat → Option (Bool × PageStore)
  | 0, _, _, _, _ => none
  | fuel + 1, s, header, blockIdx, blockOffset =>
    match header.getBlockPageId blockIdx with
    | none =>
      let (_, s') := insertToNewBlock kSize vSize s k v header blockIdx blockOffset
      some (true, s')
    | some blockPid =>
      match findAvailableSlot kSize vSize s k v blockPid blockOffset with
      | .NotFound =>
        let nextIdx := if blockIdx + 1 = header.size then 0 else blockIdx + 1
        tryInsertLoop kSize vSize k v fuel s header nextIdx 0
      | .Duplicated => some (false, s)
      | .Found (foundBlock, offset) =>
        let (_, s') := updatePage s (some blockPid) ((foundBlock.insert offset k v).2.serialize)
        some (true, s')

/-- `LinearProbeHashTable::insert` for the tests' key/value instantiation:
hash the key, derive `(block_idx, block_offset)` and run the probe loop.
`hashFn` is the pluggable `fn(&K) -> u64`; `none` models either the header
deserialize panic or a probe loop still running after `fuel` iterations. -/
def insert (kSize vSize : Nat) (hashFn : List Nat → Nat) (fuel : Nat)
    (s : PageStore) (headerPid : Nat) (k v : List Nat) : Option (Bool × PageStore) :=
  match getHeader s headerPid with
  | none => none
  | some header =>
    let slotCapacity := capacityOfBlock kSize vSize
    let slotIdx := hashFn k % (header.size * slotCapacity)
    let blockIdx := slotIdx / slotCapacity
    let blockOffset := slotIdx - blockIdx * slotCapacity
    tryInsertLoop kSize vSize k v fuel s header blockIdx blockOffset

end LinearProbeHashTable

/-! ## Concrete states used by witnesses and counterexamples -/

/-- A disk oracle whose operations all succeed; reads return a zero page. -/
def okDisk : DiskManager :=
  { writePage := fun _ _ => .ok (),
    readPage := fun _ => .ok zeroPage,
    allocatePage := .ok 1,
    deallocatePage := fun _ => .ok true }

/-- A disk oracle whose write fails (a mock in the style of the repository's
`MockDiskManager` tests). -/
def failWriteDisk : DiskManager :=
  { okDisk with writePage := fun _ _ => .error "disk write failed" }

/-- A disk oracle whose allocation fails (`"Exceeded max page."` as in the
`should_fail_when_disk_manager_cannot_allocate_page` test). -/
def failAllocDisk : DiskManager :=
  { okDisk with allocatePage := .error "Exceeded max page." }

/-- A pool of size 1 whose single frame holds page 0, unpinned and dirty,
eligible in the replacer; the free list is empty. -/
def cexPool : BufferPoolManager :=
  { pageTable := [(0, 0)],
    freeList := [],
    bufferPool := [{ id := 0, pinCount := 0, dirtyFlag := true, data := zeroPage }],
    replacer := { size := 1, last := 0, frameHolder := [REF_ZERO] } }

/-- Like `cexPool` but with the frame clean and pinned once. -/
def cleanPool : BufferPoolManager :=
  { cexPool with
    bufferPool := [{ id := 0, pinCount := 1, dirtyFlag := false, data := zeroPage }] }

/-- A one-frame replacer holding a single `REF_ZERO` candidate. -/
def cexReplacer : ClockReplacer := { size := 1, last := 0, frameHolder := [REF_ZERO] }

/-- A concrete key in the tests' 10-byte key format. -/
def fakeKey1 : List Nat := 1 :: List.replicate 9 0

/-- A concrete value in the tests' 20-byte value format. -/
def fakeVal1 : List Nat := 2 :: List.replicate 19 0

/-- Sequential application of block-page inserts (for the "after any sequence
of inserts" part of C7). -/
def insertSeq (b : HashTableBlockPage) : List (Nat × List Nat × List Nat) → HashTableBlockPage
  | [] => b
  | (s, k, v) :: rest => insertSeq (b.insert s k v).2 rest

/-- A fresh block with `(fakeKey1, fakeVal1)` inserted at the last slot
(`capacity_of_block() - 1 = 134` for the 10/20-byte instantiation). -/
def c3Block : HashTableBlockPage :=
  ((HashTableBlockPage.new 10 20).insert 134 fakeKey1 fakeVal1).2

/-- The result of deserializing the serialized form of `c3Block`. -/
def c3RoundTrip : HashTableBlockPage :=
  HashTableBlockPage.deserialize 10 20 c3Block.serialize

/-- A pluggable hash function sending every key to 0 (the tests use such
forced-collision hash functions, e.g. `FAKE_HASH`). -/
def hashZero : List Nat → Nat := fun _ => 0

/-- A pluggable hash function sending every key to 134, forcing the home slot
onto the last slot of block 0. -/
def hash134 : List Nat → Nat := fun _ => 134

/-- The header of a one-bucket table whose single directory entry points at
block page 1. -/
def c4Header : HashTableHeaderPage :=
  { pageId := 0, size := 1, nextIdx := 1,
    blockPageIds := (List.replicate BLOCK_PAGE_IDS_SIZE INVALID_PAGE_ID).set 0 1 }

/-- A completely full block: every occupied bit set, all cells default (so no
stored pair equals `(fakeKey1, fakeVal1)`). -/
def c4FullBlock : HashTableBlockPage :=
  { occupied := List.replicate 17 255, readable := List.replicate 17 0,
    array := List.replicate 135 (HashTableBlockPage.defaultMapping 10 20) }

/-- A one-bucket table whose only block is completely full: the store holds
the header page (pid 0) and the full block page (pid 1). -/
def c4Store : PageStore :=
  { pages := [(0, overwrite zeroPage c4Header.serialize),
              (1, overwrite zeroPage c4FullBlock.serialize)],
    nextPid := 2 }

/-- A freshly created two-bucket table (header page id 0). -/
def c6Store0 : PageStore := (LinearProbeHashTable.newTable 2 { pages := [], nextPid := 0 }).2

/-- First insert of `(fakeKey1, fakeVal1)`, whose home slot is the last slot
of block 0. -/
def c6Insert1 : Option (Bool × PageStore) :=
  LinearProbeHashTable.insert 10 20 hash134 2 c6Store0 0 fakeKey1 fakeVal1

/-- The table state after the first insert. -/
def c6Store1 : PageStore :=
  match c6Insert1 with
  | some (_, s) => s
  | none => c6Store0

/-- Second insert of the same pair. -/
def c6Insert2 : Option (Bool × PageStore) :=
  LinearProbeHashTable.insert 10 20 hash134 2 c6Store1 0 fakeKey1 fakeVal1

/-- The store after the first insert, with page contents spelled as the
operations build them: page 0 is written twice (the fresh header, then the
header with the directory entry for the new block page 1), page 1 holds the
serialized block with the pair at slot 134. -/
def c6S1raw : PageStore :=
  { pages := [(0, overwrite (overwrite zeroPage (HashTableHeaderPage.new 0 2).serialize)
        ((HashTableHeaderPage.new 0 2).setBlockPageId 1 0).serialize),
      (1, overwrite zeroPage c3Block.serialize)],
    nextPid := 2 }

/-- A pool of size 2: frame 0 resident (page 0, unpinned, clean, in the
replacer), frame 1 free. -/
def pool2 : BufferPoolManager :=
  { pageTable := [(0, 0)],
    freeList := [1],
    bufferPool := [{ id := 0, pinCount := 0, dirtyFlag := false, data := zeroPage },
                   EMPTY_PAGE],
    replacer := { size := 1, last := 0, frameHolder := [REF_ZERO, NO_FRAME] } }

end MineDB

/-! # Theorems -/

namespace MineDB

/-! ## List toolkit -/

theorem getD_set_same {α : Type} (l : List α) (i : Nat) (a d : α) (h : i < l.length) :
    (l.set i a).getD i d = a := by
  simp [List.getD_eq_getElem?_getD, List.getElem?_set_eq_of_lt a h]

theorem getD_set_other {α : Type} (l : List α) {i j : Nat} (a d : α) (h : i ≠ j) :
    (l.set i a).getD j d = l.getD j d := by
  simp [List.getD_eq_getElem?_getD, List.getElem?_set_ne h]

theorem getD_replicate_lt {α : Type} {n i : Nat} (a d : α) (h : i < n) :
    (List.replicate n a).getD i d = a := by
  simp [List.getD_eq_getElem?_getD, List.getElem?_replicate, h]

theorem getD_lt_eq_getElem {α : Type} (l : List α) (i : Nat) (d : α) (h : i < l.length) :
    l.getD i d = l[i] := by
  simp [List.getD_eq_getElem?_getD, List.getElem?_eq_getElem h]

theorem set_replicate_last {α : Type} : ∀ (n : Nat) (a c : α),
    (List.replicate (n + 1) a).set n c = List.replicate n a ++ [c] := by
  intro n
  induction n with
  | zero => intro a c; rfl
  | succ n ih =>
    intro a c
    show a :: (List.replicate (n + 1) a).set n c = _
    rw [ih]
    rfl

theorem set_getD_self {α : Type} : ∀ (l : List α) (n : Nat) (d : α), n < l.length →
    l.set n (l.getD n d) = l := by
  intro l
  induction l with
  | nil => intro n d h; simp at h
  | cons a t ih =>
    intro n d h
    cases n with
    | zero => rfl
    | succ n =>
      show a :: t.set n (t.getD n d) = a :: t
      rw [ih n d (by simpa using h)]

theorem getD_foldl_set_range_ge {α : Type} (g : Nat → α) (d : α) : ∀ (n : Nat)
    (arr : List α) (j : Nat), n ≤ j →
    ((List.range n).foldl (fun a k => a.set k (g k)) arr).getD j d = arr.getD j d := by
  intro n
  induction n with
  | zero => intro arr j _; rfl
  | succ n ih =>
    intro arr j hj
    rw [List.range_succ, List.foldl_append]
    show (((List.range n).foldl _ arr).set n (g n)).getD j d = _
    rw [getD_set_other _ _ _ (by omega), ih arr j (by omega)]

theorem foldl_set_range_id {α : Type} (g : Nat → α) (d : α) : ∀ (n : Nat) (arr : List α),
    n ≤ arr.length → (∀ k, k < n → g k = arr.getD k d) →
    (List.range n).foldl (fun a k => a.set k (g k)) arr = arr := by
  intro n
  induction n with
  | zero => intro arr _ _; rfl
  | succ n ih =>
    intro arr hn hg
    rw [List.range_succ, List.foldl_append]
    show ((List.range n).foldl _ arr).set n (g n) = arr
    rw [ih arr (by omega) (fun k hk => hg k (by omega)), hg n (by omega)]
    exact set_getD_self arr n d (by omega)

theorem foldl_set_range_single {α : Type} (g : Nat → α) (d : α) (j : Nat) (c : α) :
    ∀ (n : Nat) (arr : List α), j < n → n ≤ arr.length → g j = c →
    (∀ k, k < n → k ≠ j → g k = arr.getD k d) →
    (List.range n).foldl (fun a k => a.set k (g k)) arr = arr.set j c := by
  intro n
  induction n with
  | zero => intro arr hj; omega
  | succ n ih =>
    intro arr hj hn hgj hg
    rw [List.range_succ, List.foldl_append]
    show ((List.range n).foldl _ arr).set n (g n) = arr.set j c
    by_cases hjn : j = n
    · rw [foldl_set_range_id g d n arr (by omega) (fun k hk => hg k (by omega) (by omega)),
        ← hjn, hgj]
    · rw [ih arr (by omega) (by omega) hgj (fun k hk hkj => hg k (by omega) hkj),
        hg n (by omega) (fun h => hjn h.symm),
        ← @getD_set_other _ arr j n c d (fun h => hjn h)]
      exact set_getD_self (arr.set j c) n d (by simp; omega)

theorem foldr_mapping_zero (p q : Nat) : ∀ (n : Nat) (acc : List Nat),
    List.foldr (fun (c : MappingType) acc => c.1 ++ c.2 ++ acc) acc
      (List.replicate n (List.replicate p 0, List.replicate q 0))
    = List.replicate (n * (p + q)) 0 ++ acc := by
  intro n
  induction n with
  | zero => intro acc; simp
  | succ n ih =>
    intro acc
    show List.replicate p 0 ++ List.replicate q 0 ++ _ = _
    rw [ih acc, show (n + 1) * (p + q) = p + q + n * (p + q) by ring]
    conv_rhs => rw [List.replicate_add, List.append_assoc]
    simp [List.append_assoc]

/-! ## Clock replacer lemmas and claim C5 -/

namespace ClockReplacer

theorem countPresent_le_length (l : List Int) : countPresent l ≤ l.length :=
  List.countP_le_length _

theorem countPresent_cons (a : Int) (l : List Int) :
    countPresent (a :: l) = countPresent l + (if a ≠ NO_FRAME then 1 else 0) := by
  simp [countPresent, List.countP_cons]

theorem countPresent_set_calc : ∀ (l : List Int) (i : Nat) (v : Int), i < l.length →
    countPresent (l.set i v) + (if l.getD i NO_FRAME ≠ NO_FRAME then 1 else 0)
      = countPresent l + (if v ≠ NO_FRAME then 1 else 0) := by
  intro l
  induction l with
  | nil => intro i v h; simp at h
  | cons a t ih =>
    intro i v h
    cases i with
    | zero =>
      show countPresent (v :: t) + _ = _
      rw [countPresent_cons, countPresent_cons]
      have : (a :: t).getD 0 NO_FRAME = a := rfl
      rw [this]
      omega
    | succ i =>
      show countPresent (a :: t.set i v) + _ = _
      rw [countPresent_cons, countPresent_cons]
      have : (a :: t).getD (i + 1) NO_FRAME = t.getD i NO_FRAME := rfl
      rw [this]
      have := ih i v (by simpa using h)
      omega

theorem countPresent_set_absent (l : List Int) (i : Nat) (h : i < l.length)
    (hv : l.getD i NO_FRAME ≠ NO_FRAME) :
    countPresent (l.set i NO_FRAME) + 1 = countPresent l := by
  have := countPresent_set_calc l i NO_FRAME h
  simp only [if_pos hv] at this
  simpa using this

theorem countPresent_set_demote (l : List Int) (i : Nat) (h : i < l.length)
    (hv : l.getD i NO_FRAME = REF_ONE) :
    countPresent (l.set i REF_ZERO) = countPresent l := by
  have := countPresent_set_calc l i REF_ZERO h
  rw [hv] at this
  have h1 : (REF_ONE : Int) ≠ NO_FRAME := by decide
  have h0 : (REF_ZERO : Int) ≠ NO_FRAME := by decide
  rw [if_pos h1, if_pos h0] at this
  omega

theorem sweep_some_spec : ∀ (fuel : Nat) (frames : List Int) (hand fid : Nat)
    (out : List Int), hand < frames.length →
    sweep frames hand fuel = some (fid, out) →
    fid < frames.length ∧ out.length = frames.length ∧
    out.getD fid NO_FRAME = NO_FRAME ∧
    frames.getD fid NO_FRAME ≠ NO_FRAME ∧
    countPresent out + 1 = countPresent frames ∧
    (∀ i, i ≠ fid →
      (frames.getD i NO_FRAME = NO_FRAME → out.getD i NO_FRAME = NO_FRAME) ∧
      (out.getD i NO_FRAME = frames.getD i NO_FRAME ∨ out.getD i NO_FRAME = REF_ZERO)) := by
  intro fuel
  induction fuel with
  | zero => intro frames hand fid out _ hs; simp [sweep] at hs
  | succ f ih =>
    intro frames hand fid out hhand hs
    rw [sweep] at hs
    by_cases hz : frames.getD hand NO_FRAME = REF_ZERO
    · simp only [hz, if_pos rfl] at hs
      obtain ⟨rfl, rfl⟩ : hand = fid ∧ frames.set hand NO_FRAME = out := by
        simpa using hs
      refine ⟨hhand, by simp, getD_set_same _ _ _ _ hhand, by rw [hz]; decide,
        countPresent_set_absent frames hand hhand (by rw [hz]; decide), ?_⟩
      intro i hi
      rw [getD_set_other _ _ _ (fun hh => hi hh.symm)]
      exact ⟨fun h => h, Or.inl rfl⟩
    · simp only [if_neg hz] at hs
      by_cases ho : frames.getD hand NO_FRAME = REF_ONE
      · simp only [ho, if_pos rfl] at hs
        have hhand' : (if hand + 1 = frames.length then 0 else hand + 1) <
            (frames.set hand REF_ZERO).length := by
          simp only [List.length_set]
          split <;> omega
        have IH := ih (frames.set hand REF_ZERO) _ fid out hhand' hs
        simp only [List.length_set] at IH
        obtain ⟨h1, h2, h3, h4, h5, h6⟩ := IH
        refine ⟨h1, h2, h3, ?_, ?_, ?_⟩
        · by_cases hf : fid = hand
          · rw [hf, ho]; decide
          · rwa [getD_set_other _ _ _ (fun hh => hf hh.symm)] at h4
        · rwa [countPresent_set_demote frames hand hhand ho] at h5
        · intro i hi
          by_cases hih : i = hand
          · subst hih
            constructor
            · intro habs; rw [ho] at habs; exact absurd habs (by decide)
            · rcases (h6 i hi).2 with h | h
              · rw [getD_set_same _ _ _ _ hhand] at h; exact Or.inr h
              · exact Or.inr h
          · have hne : hand ≠ i := fun hh => hih hh.symm
            have h := h6 i hi
            rw [getD_set_other _ _ _ hne] at h
            exact h
      · simp only [if_neg ho] at hs
        have hhand' : (if hand + 1 = frames.length then 0 else hand + 1) <
            frames.length := by split <;> omega
        exact ih frames _ fid out hhand' hs

theorem sweep_zero_at_dist : ∀ (e : Nat) (frames : List Int) (hand fuel : Nat),
    hand < frames.length →
    frames.getD ((hand + e) % frames.length) NO_FRAME = REF_ZERO →
    e + 1 ≤ fuel →
    ∃ r, sweep frames hand fuel = some r := by
  intro e
  induction e with
  | zero =>
    intro frames hand fuel hhand hq hfuel
    obtain ⟨f, rfl⟩ : ∃ f, fuel = f + 1 := ⟨fuel - 1, by omega⟩
    rw [Nat.add_zero, Nat.mod_eq_of_lt hhand] at hq
    exact ⟨(hand, frames.set hand NO_FRAME), by rw [sweep, if_pos hq]⟩
  | succ e ih =>
    intro frames hand fuel hhand hq hfuel
    obtain ⟨f, rfl⟩ : ∃ f, fuel = f + 1 := ⟨fuel - 1, by omega⟩
    rw [sweep]
    by_cases hz : frames.getD hand NO_FRAME = REF_ZERO
    · exact ⟨(hand, frames.set hand NO_FRAME), by rw [if_pos hz]⟩
    · simp only [if_neg hz]
      have hqh : (hand + (e + 1)) % frames.length ≠ hand := by
        intro hh; rw [hh] at hq; exact hz hq
      set frames' := if frames.getD hand NO_FRAME = REF_ONE
        then frames.set hand REF_ZERO else frames with hframes'
      have hlen' : frames'.length = frames.length := by
        rw [hframes']; split <;> simp
      have hget' : ∀ j, j ≠ hand → frames'.getD j NO_FRAME = frames.getD j NO_FRAME := by
        intro j hj
        rw [hframes']
        split
        · exact getD_set_other _ _ _ (fun hh => hj hh.symm)
        · rfl
      set hand' := if hand + 1 = frames.length then 0 else hand + 1 with hhand'def
      have hhand' : hand' < frames'.length := by
        rw [hlen', hhand'def]; split <;> omega
      have harith : (hand' + e) % frames'.length = (hand + (e + 1)) % frames.length := by
        rw [hlen', hhand'def]
        split
        · rename_i hwrap
          have : hand + (e + 1) = frames.length + e := by omega
          rw [this, Nat.add_mod_left, Nat.zero_add]
        · have : hand + 1 + e = hand + (e + 1) := by omega
          rw [this]
      refine ih frames' hand' f hhand' ?_ (by omega)
      rw [harith, hget' _ hqh]
      exact hq

theorem sweep_present_succeeds : ∀ (e : Nat) (frames : List Int) (hand fuel : Nat),
    hand < frames.length → e < frames.length →
    (frames.getD ((hand + e) % frames.length) NO_FRAME = REF_ZERO ∨
     frames.getD ((hand + e) % frames.length) NO_FRAME = REF_ONE) →
    e + frames.length + 1 ≤ fuel →
    ∃ r, sweep frames hand fuel = some r := by
  intro e
  induction e with
  | zero =>
    intro frames hand fuel hhand he hq hfuel
    rw [Nat.add_zero, Nat.mod_eq_of_lt hhand] at hq
    rcases hq with hq | hq
    · exact sweep_zero_at_dist 0 frames hand fuel hhand
        (by rw [Nat.add_zero, Nat.mod_eq_of_lt hhand]; exact hq) (by omega)
    · obtain ⟨f, rfl⟩ : ∃ f, fuel = f + 1 := ⟨fuel - 1, by omega⟩
      rw [sweep]
      have hz : ¬ frames.getD hand NO_FRAME = REF_ZERO := by rw [hq]; decide
      simp only [if_neg hz, hq, if_pos rfl]
      set frames' := frames.set hand REF_ZERO with hframes'
      set hand' := if hand + 1 = frames.length then 0 else hand + 1 with hhand'def
      have hlen' : frames'.length = frames.length := by simp [hframes']
      have hhand' : hand' < frames'.length := by rw [hlen', hhand'def]; split <;> omega
      have harith : (hand' + (frames.length - 1)) % frames'.length = hand := by
        rw [hlen', hhand'def]
        split
        · rename_i hwrap
          rw [Nat.zero_add, Nat.mod_eq_of_lt (by omega)]
          omega
        · have : hand + 1 + (frames.length - 1) = hand + frames.length := by omega
          rw [this, Nat.add_mod_right, Nat.mod_eq_of_lt hhand]
      refine sweep_zero_at_dist (frames.length - 1) frames' hand' f hhand' ?_ (by omega)
      rw [harith, hframes', getD_set_same _ _ _ _ hhand]
  | succ e ih =>
    intro frames hand fuel hhand he hq hfuel
    obtain ⟨f, rfl⟩ : ∃ f, fuel = f + 1 := ⟨fuel - 1, by omega⟩
    rw [sweep]
    by_cases hz : frames.getD hand NO_FRAME = REF_ZERO
    · exact ⟨(hand, frames.set hand NO_FRAME), by rw [if_pos hz]⟩
    · simp only [if_neg hz]
      have hqh : (hand + (e + 1)) % frames.length ≠ hand := by
        intro hh
        rcases Nat.lt_or_ge (hand + (e + 1)) frames.length with hlt | hge
        · rw [Nat.mod_eq_of_lt hlt] at hh; omega
        · rw [Nat.mod_eq_sub_mod hge,
            Nat.mod_eq_of_lt (by omega)] at hh
          omega
      set frames' := if frames.getD hand NO_FRAME = REF_ONE
        then frames.set hand REF_ZERO else frames with hframes'
      have hlen' : frames'.length = frames.length := by
        rw [hframes']; split <;> simp
      have hget' : ∀ j, j ≠ hand → frames'.getD j NO_FRAME = frames.getD j NO_FRAME := by
        intro j hj
        rw [hframes']
        split
        · exact getD_set_other _ _ _ (fun hh => hj hh.symm)
        · rfl
      set hand' := if hand + 1 = frames.length then 0 else hand + 1 with hhand'def
      have hhand' : hand' < frames'.length := by rw [hlen', hhand'def]; split <;> omega
      have harith : (hand' + e) % frames'.length = (hand + (e + 1)) % frames.length := by
        rw [hlen', hhand'def]
        split
        · rename_i hwrap
          have : hand + (e + 1) = frames.length + e := by omega
          rw [this, Nat.add_mod_left, Nat.zero_add]
        · have : hand + 1 + e = hand + (e + 1) := by omega
          rw [this]
      refine ih frames' hand' f hhand' (by omega) ?_ (by omega)
      rw [harith, hget' _ hqh]
      exact hq

theorem exists_candidate (l : List Int)
    (hvals : ∀ m ∈ l, m = NO_FRAME ∨ m = REF_ZERO ∨ m = REF_ONE)
    (hpos : 0 < countPresent l) :
    ∃ q, q < l.length ∧
      (l.getD q NO_FRAME = REF_ZERO ∨ l.getD q NO_FRAME = REF_ONE) := by
  rw [countPresent, List.countP_pos] at hpos
  obtain ⟨m, hm, hp⟩ := hpos
  obtain ⟨q, hq, he⟩ := List.mem_iff_getElem.mp hm
  refine ⟨q, hq, ?_⟩
  rw [getD_lt_eq_getElem l q NO_FRAME hq, he]
  have hne : m ≠ NO_FRAME := by simpa using hp
  rcases hvals m hm with h | h | h
  · exact absurd h hne
  · exact Or.inl h
  · exact Or.inr h

end ClockReplacer

open ClockReplacer in
/-- Claim C5: under the replacer state invariants (the `size` field counts the
non-absent markers, markers take only the three legal values, the hand is in
range), `victim` returns `none` exactly when no candidate is present;
otherwise the sweep terminates and returns a frame that was present, marking
it absent, decrementing the count, leaving the hand at that slot, demoting
passed `REF_ONE` frames to `REF_ZERO` and leaving absent frames absent. -/
theorem C5_victim_spec (r : ClockReplacer)
    (hinv : r.size = countPresent r.frameHolder)
    (hvals : ∀ m ∈ r.frameHolder, m = NO_FRAME ∨ m = REF_ZERO ∨ m = REF_ONE)
    (hlen : r.frameHolder.length < U64)
    (hlast : 0 < countPresent r.frameHolder → r.last < r.frameHolder.length) :
    ((victim r).1 = none ↔ countPresent r.frameHolder = 0) ∧
    (∀ fid rep', victim r = (some fid, rep') →
      fid < r.frameHolder.length ∧
      r.frameHolder.getD fid NO_FRAME ≠ NO_FRAME ∧
      rep'.frameHolder.getD fid NO_FRAME = NO_FRAME ∧
      rep'.last = fid ∧
      rep'.frameHolder.length = r.frameHolder.length ∧
      countPresent rep'.frameHolder + 1 = countPresent r.frameHolder ∧
      rep'.size = countPresent rep'.frameHolder ∧
      (∀ i, i ≠ fid →
        (r.frameHolder.getD i NO_FRAME = NO_FRAME →
          rep'.frameHolder.getD i NO_FRAME = NO_FRAME) ∧
        (rep'.frameHolder.getD i NO_FRAME = r.frameHolder.getD i NO_FRAME ∨
         rep'.frameHolder.getD i NO_FRAME = REF_ZERO))) := by
  by_cases hsz : r.size = 0
  · have hc : countPresent r.frameHolder = 0 := by omega
    have hv : victim r = (none, r) := by rw [victim, if_pos hsz]
    constructor
    · rw [hv]; simpa using hc
    · intro fid rep' h
      rw [hv] at h
      exact absurd (congrArg Prod.fst h) (by simp)
  · have hcount : 0 < countPresent r.frameHolder := by omega
    have hlast' : r.last < r.frameHolder.length := hlast hcount
    obtain ⟨q, hq, hcand⟩ := exists_candidate r.frameHolder hvals hcount
    have hlen0 : 0 < r.frameHolder.length := by omega
    set n := r.frameHolder.length with hn
    set e := (q + n - r.last) % n with hedef
    have he : e < n := Nat.mod_lt _ hlen0
    have harith : (r.last + e) % n = q := by
      rw [hedef, Nat.add_mod_mod]
      have hx : r.last + (q + n - r.last) = q + n := by omega
      rw [hx, Nat.add_mod_right, Nat.mod_eq_of_lt hq]
    have hsw : ∃ p, sweep r.frameHolder r.last (2 * n + 1) = some p := by
      refine sweep_present_succeeds e r.frameHolder r.last (2 * n + 1) hlast' he ?_ (by omega)
      rw [← hn, harith]
      exact hcand
    obtain ⟨⟨fid, out⟩, hsw⟩ := hsw
    have hvic : victim r = (some fid, ⟨usizeSub1 r.size, fid, out⟩) := by
      rw [victim, if_neg hsz, ← hn, hsw]
    have spec := sweep_some_spec (2 * n + 1) r.frameHolder r.last fid out hlast' hsw
    obtain ⟨s1, s2, s3, s4, s5, s6⟩ := spec
    constructor
    · rw [hvic]
      constructor
      · intro h; exact absurd h (by simp)
      · intro h; omega
    · intro fid' rep' h
      rw [hvic] at h
      obtain ⟨rfl, rfl⟩ : fid = fid' ∧ (⟨usizeSub1 r.size, fid, out⟩ : ClockReplacer) = rep' := by
        have h1 := congrArg Prod.fst h
        have h2 := congrArg Prod.snd h
        simp at h1 h2
        exact ⟨h1, h2⟩
      have hcle : countPresent r.frameHolder ≤ n := countPresent_le_length _
      refine ⟨s1, s4, s3, rfl, s2, s5, ?_, s6⟩
      show usizeSub1 r.size = countPresent out
      rw [hinv, usizeSub1_eq _ hcount (by omega)]
      omega

open ClockReplacer in
/-- Witness for C5 at a one-frame replacer with a single present candidate:
its `victim` cannot return `none`. -/
theorem C5_victim_spec_witness : (victim cexReplacer).1 ≠ none := by
  have h := C5_victim_spec cexReplacer (by decide) (by decide)
    (by norm_num [U64, cexReplacer]) (fun _ => by norm_num [cexReplacer])
  intro hn
  have hc := h.1.mp hn
  rw [cexReplacer] at hc
  simp [countPresent, REF_ZERO, NO_FRAME] at hc

/-! ## Claim C1: `unpin_page` -/

/-- Counterexample to C1: on a resident dirty page, `unpin_page(pid, false)`
leaves the dirty flag `false`, not the OR of the previous flag (`true`) with
`false` — the flag is overwritten, not sticky. -/
theorem C1_counterexample :
    ((BufferPoolManager.unpinPage cexPool 0 false).2.bufferPool.getD 0 EMPTY_PAGE).dirtyFlag
      ≠ ((cexPool.bufferPool.getD 0 EMPTY_PAGE).dirtyFlag || false) := by
  have h1 : ((BufferPoolManager.unpinPage cexPool 0 false).2.bufferPool.getD 0
      EMPTY_PAGE).dirtyFlag = false := rfl
  have h2 : ((cexPool.bufferPool.getD 0 EMPTY_PAGE).dirtyFlag || false) = true := rfl
  rw [h1, h2]
  exact Bool.false_ne_true

/-- Claim C1 as amended: for a resident page, `unpin_page(pid, d)` returns
`true`, decrements (wrapping) the frame's pin count, assigns the dirty flag to
`d` (overwriting the previous value rather than OR-ing it), sets the frame's
replacer marker to `REF_ONE`, and changes nothing else; for a non-resident
page it returns `false` and changes nothing. -/
theorem C1_unpin_amended (bpm : BufferPoolManager) (pid : Nat) (d : Bool) :
    (∀ fid, ptGet bpm.pageTable pid = some fid →
      fid < bpm.bufferPool.length →
      fid < bpm.replacer.frameHolder.length →
      (BufferPoolManager.unpinPage bpm pid d).1 = true ∧
      (BufferPoolManager.unpinPage bpm pid d).2.pageTable = bpm.pageTable ∧
      (BufferPoolManager.unpinPage bpm pid d).2.freeList = bpm.freeList ∧
      ((BufferPoolManager.unpinPage bpm pid d).2.bufferPool.getD fid EMPTY_PAGE).pinCount
        = usizeSub1 (bpm.bufferPool.getD fid EMPTY_PAGE).pinCount ∧
      ((BufferPoolManager.unpinPage bpm pid d).2.bufferPool.getD fid EMPTY_PAGE).dirtyFlag = d ∧
      ((BufferPoolManager.unpinPage bpm pid d).2.bufferPool.getD fid EMPTY_PAGE).id
        = (bpm.bufferPool.getD fid EMPTY_PAGE).id ∧
      ((BufferPoolManager.unpinPage bpm pid d).2.bufferPool.getD fid EMPTY_PAGE).data
        = (bpm.bufferPool.getD fid EMPTY_PAGE).data ∧
      (∀ j, j ≠ fid → (BufferPoolManager.unpinPage bpm pid d).2.bufferPool.getD j EMPTY_PAGE
        = bpm.bufferPool.getD j EMPTY_PAGE) ∧
      (BufferPoolManager.unpinPage bpm pid d).2.replacer.frameHolder.getD fid NO_FRAME
        = REF_ONE ∧
      (∀ j, j ≠ fid → (BufferPoolManager.unpinPage bpm pid d).2.replacer.frameHolder.getD j
          NO_FRAME = bpm.replacer.frameHolder.getD j NO_FRAME)) ∧
    (ptGet bpm.pageTable pid = none →
      BufferPoolManager.unpinPage bpm pid d = (false, bpm)) := by
  constructor
  · intro fid hfid hb hr
    have hstep : BufferPoolManager.unpinPage bpm pid d =
        (true, { bpm with
          bufferPool := bpm.bufferPool.set fid
            (((bpm.bufferPool.getD fid EMPTY_PAGE).unpin).setDirty d),
          replacer := bpm.replacer.unpin fid }) := by
      simp only [BufferPoolManager.unpinPage, hfid]
    rw [hstep]
    refine ⟨rfl, rfl, rfl, ?_, ?_, ?_, ?_, ?_, ?_, ?_⟩
    · rw [getD_set_same _ _ _ _ hb]; simp [Page.unpin, Page.setDirty]
    · rw [getD_set_same _ _ _ _ hb]; simp [Page.unpin, Page.setDirty]
    · rw [getD_set_same _ _ _ _ hb]; simp [Page.unpin, Page.setDirty]
    · rw [getD_set_same _ _ _ _ hb]; simp [Page.unpin, Page.setDirty]
    · intro j hj
      exact getD_set_other _ _ _ (fun h => hj h.symm)
    · show (bpm.replacer.unpin fid).frameHolder.getD fid NO_FRAME = REF_ONE
      rw [ClockReplacer.unpin]
      exact getD_set_same _ _ _ _ hr
    · intro j hj
      show (bpm.replacer.unpin fid).frameHolder.getD j NO_FRAME = _
      rw [ClockReplacer.unpin]
      exact getD_set_other _ _ _ (fun h => hj h.symm)
  · intro hnone
    simp only [BufferPoolManager.unpinPage, hnone]

/-- Witness for the amended C1 at a concrete pool: unpinning resident page 0
with `d = true` returns `true` and marks the frame dirty. -/
theorem C1_unpin_amended_witness :
    (BufferPoolManager.unpinPage cleanPool 0 true).1 = true ∧
    ((BufferPoolManager.unpinPage cleanPool 0 true).2.bufferPool.getD 0 EMPTY_PAGE).dirtyFlag
      = true ∧
    ((BufferPoolManager.unpinPage cleanPool 0 true).2.bufferPool.getD 0 EMPTY_PAGE).pinCount
      = usizeSub1 1 := by
  have h := (C1_unpin_amended cleanPool 0 true).1 0 rfl
    (by exact Nat.zero_lt_one) (by exact Nat.zero_lt_one)
  exact ⟨h.1, h.2.2.2.2.1, h.2.2.2.1⟩

/-! ## Claim C2: write-back failure during eviction -/

/-- Counterexample to C2: with a one-frame pool holding a dirty unpinned page
and a disk whose write fails, `fetch_page` of a new page id panics (the Rust
code `.unwrap()`s the write-back result) instead of returning the error. -/
theorem C2_counterexample :
    BufferPoolManager.fetchPage failWriteDisk cexPool 1 = PoolOut.panicked := rfl

/-- Claim C2 as amended: on a miss that acquires frame `fid` holding a dirty
victim, a failing disk write makes `fetch_page` panic (it does not return the
error); when the write-back (and the subsequent read) succeed, the returned
state's page table is the old one with the victim's entry removed and
`pid ↦ fid` inserted — i.e. the page table is only mutated after a successful
write-back. -/
theorem C2_writeback_amended (dm : DiskManager) (bpm : BufferPoolManager)
    (pid fid : Nat) (bpm' : BufferPoolManager)
    (hmiss : ptGet bpm.pageTable pid = none)
    (hframe : bpm.getAvailableFrame = .ok fid bpm')
    (hdirty : (bpm'.bufferPool.getD fid EMPTY_PAGE).dirtyFlag = true) :
    (∀ e, dm.writePage (bpm'.bufferPool.getD fid EMPTY_PAGE).id
        (bpm'.bufferPool.getD fid EMPTY_PAGE).data = .error e →
      BufferPoolManager.fetchPage dm bpm pid = PoolOut.panicked) ∧
    (dm.writePage (bpm'.bufferPool.getD fid EMPTY_PAGE).id
        (bpm'.bufferPool.getD fid EMPTY_PAGE).data = .ok () →
      ∀ d, dm.readPage pid = .ok d →
      (∃ s, BufferPoolManager.fetchPage dm bpm pid = PoolOut.ok fid s) ∧
      (∀ v s, BufferPoolManager.fetchPage dm bpm pid = PoolOut.ok v s →
        s.pageTable = ptInsert (ptRemove bpm'.pageTable
          (bpm'.bufferPool.getD fid EMPTY_PAGE).id) pid fid)) := by
  constructor
  · intro e hw
    simp only [BufferPoolManager.fetchPage, hmiss, hframe,
      BufferPoolManager.updatePage, hdirty, if_pos, hw]
  · intro hw d hr
    have hstep : BufferPoolManager.fetchPage dm bpm pid =
        PoolOut.ok fid
          { bpm' with
            pageTable := ptInsert (ptRemove bpm'.pageTable
              ((bpm'.bufferPool.getD fid EMPTY_PAGE).setDirty false).id) pid fid,
            bufferPool := bpm'.bufferPool.set fid
              { ((((bpm'.bufferPool.getD fid EMPTY_PAGE).setDirty false).setId pid).pin)
                  with data := d },
            replacer := bpm'.replacer.pin fid } := by
      simp only [BufferPoolManager.fetchPage, hmiss, hframe,
        BufferPoolManager.updatePage, hdirty, if_pos, hw, hr]
      rfl
    refine ⟨⟨_, hstep⟩, ?_⟩
    intro v s h
    rw [hstep] at h
    injection h with h1 h2
    subst h2
    rfl

/-- Witness for the amended C2: the failing-write instance panics, and with a
working disk the same fetch succeeds and rewrites the page table from
`[(0, 0)]` to `[(1, 0)]`. -/
theorem C2_writeback_amended_witness :
    BufferPoolManager.fetchPage failWriteDisk cexPool 1 = PoolOut.panicked ∧
    ∃ s, BufferPoolManager.fetchPage okDisk cexPool 1 = PoolOut.ok 0 s ∧
      s.pageTable = [(1, 0)] := by
  constructor
  · exact (C2_writeback_amended failWriteDisk cexPool 1 0
      { cexPool with replacer := { size := usizeSub1 1, last := 0, frameHolder := [NO_FRAME] } }
      rfl rfl rfl).1 "disk write failed" rfl
  · obtain ⟨⟨s, hs⟩, hall⟩ := (C2_writeback_amended okDisk cexPool 1 0
      { cexPool with replacer := { size := usizeSub1 1, last := 0, frameHolder := [NO_FRAME] } }
      rfl rfl rfl).2 rfl zeroPage rfl
    exact ⟨s, hs, hall 0 s hs⟩

/-! ## Claim C8: pin-count underflow on extra unpins -/

/-- Claim C8: `unpin_page` on a resident page whose pin count is already zero
completes normally and returns `true`; the count silently wraps to
`2^64 - 1` (release-profile wrapping of the `u64` subtraction) instead of the
pool failing or aborting. -/
theorem C8_unpin_underflow (bpm : BufferPoolManager) (pid fid : Nat) (d : Bool)
    (hfid : ptGet bpm.pageTable pid = some fid)
    (hb : fid < bpm.bufferPool.length)
    (hpc : (bpm.bufferPool.getD fid EMPTY_PAGE).pinCount = 0) :
    (BufferPoolManager.unpinPage bpm pid d).1 = true ∧
    ((BufferPoolManager.unpinPage bpm pid d).2.bufferPool.getD fid EMPTY_PAGE).pinCount
      = U64 - 1 := by
  have hstep : BufferPoolManager.unpinPage bpm pid d =
      (true, { bpm with
        bufferPool := bpm.bufferPool.set fid
          (((bpm.bufferPool.getD fid EMPTY_PAGE).unpin).setDirty d),
        replacer := bpm.replacer.unpin fid }) := by
    simp only [BufferPoolManager.unpinPage, hfid]
  rw [hstep]
  refine ⟨rfl, ?_⟩
  rw [getD_set_same _ _ _ _ hb]
  show usizeSub1 (bpm.bufferPool.getD fid EMPTY_PAGE).pinCount = U64 - 1
  rw [hpc, usizeSub1]
  exact Nat.mod_eq_of_lt (by norm_num [U64])

/-- Witness for C8 at a concrete pool whose resident frame has pin count 0. -/
theorem C8_unpin_underflow_witness :
    (BufferPoolManager.unpinPage cexPool 0 false).1 = true ∧
    ((BufferPoolManager.unpinPage cexPool 0 false).2.bufferPool.getD 0 EMPTY_PAGE).pinCount
      = U64 - 1 :=
  C8_unpin_underflow cexPool 0 0 false rfl (by decide) rfl

/-! ## Claim C9: `delete_page` leaves the replacer unchanged -/

/-- Claim C9: deleting a resident unpinned page (write-back succeeding if
dirty, free list not full, disk deallocation succeeding) returns `Ok(true)`,
pushes the frame onto the free list and removes the page-table entry, while
the replacer state is completely unchanged — the frame stays present in the
replacer while also sitting in the free list. -/
theorem C9_delete_leaves_replacer (dm : DiskManager) (bpm : BufferPoolManager)
    (pid fid : Nat)
    (hfid : ptGet bpm.pageTable pid = some fid)
    (hpc : (bpm.bufferPool.getD fid EMPTY_PAGE).pinCount = 0)
    (hwrite : (bpm.bufferPool.getD fid EMPTY_PAGE).dirtyFlag = true →
      dm.writePage (bpm.bufferPool.getD fid EMPTY_PAGE).id
        (bpm.bufferPool.getD fid EMPTY_PAGE).data = .ok ())
    (hcap : bpm.freeList.length < bpm.bufferPool.length)
    (hde : dm.deallocatePage pid = .ok true) :
    BufferPoolManager.deletePage dm bpm pid =
      PoolOut.ok true { bpm with freeList := bpm.freeList ++ [fid],
                                 pageTable := ptRemove bpm.pageTable pid } ∧
    ({ bpm with freeList := bpm.freeList ++ [fid],
                pageTable := ptRemove bpm.pageTable pid } : BufferPoolManager).replacer
      = bpm.replacer ∧
    fid ∈ ({ bpm with freeList := bpm.freeList ++ [fid],
                      pageTable := ptRemove bpm.pageTable pid } : BufferPoolManager).freeList := by
  refine ⟨?_, rfl, by simp⟩
  have hpc2 : (bpm.bufferPool[fid]?.getD EMPTY_PAGE).pinCount = 0 := by
    rw [← List.getD_eq_getElem?_getD]; exact hpc
  by_cases hd : (bpm.bufferPool.getD fid EMPTY_PAGE).dirtyFlag = true
  · simp only [BufferPoolManager.deletePage, hfid, hpc, hpc2, ne_eq, not_true_eq_false,
      Bool.false_eq_true, if_false, hd, if_true, hwrite hd, if_pos hcap, hde]
  · have hd' : (bpm.bufferPool.getD fid EMPTY_PAGE).dirtyFlag = false := by
      simpa using hd
    simp only [BufferPoolManager.deletePage, hfid, hpc, hpc2, ne_eq, not_true_eq_false,
      Bool.false_eq_true, if_false, hd', if_pos hcap, hde]

/-- Witness for C9 at a concrete pool: the deleted page's frame joins the free
list while its replacer marker array is untouched. -/
theorem C9_delete_leaves_replacer_witness :
    BufferPoolManager.deletePage okDisk cexPool 0 =
      PoolOut.ok true { cexPool with freeList := [0], pageTable := [] } :=
  (C9_delete_leaves_replacer okDisk cexPool 0 0 rfl rfl (fun _ => rfl)
    (by decide) rfl).1

/-! ## Claim C10: `new_page` when disk allocation fails -/

/-- Claim C10: when `allocate_page` fails, `new_page` propagates the error and
leaves the page table and every frame untouched, but the frame acquired
beforehand is not restored: a free-list frame is gone from the free list, and
a replacer victim has been marked absent. -/
theorem C10_newPage_alloc_fail (dm : DiskManager) (bpm : BufferPoolManager) (e : String)
    (halloc : dm.allocatePage = .error e) :
    (∀ fid rest, bpm.freeList = fid :: rest →
      BufferPoolManager.newPage dm bpm = PoolOut.err e { bpm with freeList := rest }) ∧
    (∀ fid rep', bpm.freeList = [] → bpm.replacer.victim = (some fid, rep') →
      bpm.replacer.last < bpm.replacer.frameHolder.length →
      BufferPoolManager.newPage dm bpm = PoolOut.err e { bpm with replacer := rep' } ∧
      rep'.frameHolder.getD fid NO_FRAME = NO_FRAME) := by
  constructor
  · intro fid rest hfl
    simp only [BufferPoolManager.newPage, BufferPoolManager.getAvailableFrame, hfl, halloc]
  · intro fid rep' hfl hvic hlast
    constructor
    · simp only [BufferPoolManager.newPage, BufferPoolManager.getAvailableFrame, hfl, hvic,
        halloc]
    · by_cases hsz : bpm.replacer.size = 0
      · rw [ClockReplacer.victim, if_pos hsz] at hvic
        exact absurd (congrArg Prod.fst hvic) (by simp)
      · rw [ClockReplacer.victim, if_neg hsz] at hvic
        cases hsw : ClockReplacer.sweep bpm.replacer.frameHolder bpm.replacer.last
            (2 * bpm.replacer.frameHolder.length + 1) with
        | none =>
          rw [hsw] at hvic
          exact absurd (congrArg Prod.fst hvic) (by simp)
        | some p =>
          obtain ⟨f, out⟩ := p
          rw [hsw] at hvic
          have h1 : f = fid := by simpa using congrArg Prod.fst hvic
          have h2 : (⟨usizeSub1 bpm.replacer.size, f, out⟩ : ClockReplacer) = rep' := by
            simpa using congrArg Prod.snd hvic
          subst h1
          have spec := ClockReplacer.sweep_some_spec _ _ _ _ _ hlast hsw
          rw [← h2]
          exact spec.2.2.1

/-- Witness for C10: with a failing allocator, `new_page` on `pool2` consumes
the free list's only frame, and on `cexPool` it consumes the replacer's only
candidate, marking it absent. -/
theorem C10_newPage_alloc_fail_witness :
    BufferPoolManager.newPage failAllocDisk pool2 =
      PoolOut.err "Exceeded max page." { pool2 with freeList := [] } ∧
    BufferPoolManager.newPage failAllocDisk cexPool =
      PoolOut.err "Exceeded max page."
        { cexPool with replacer := { size := usizeSub1 1, last := 0, frameHolder := [NO_FRAME] } } ∧
    ({ size := usizeSub1 1, last := 0, frameHolder := [NO_FRAME] } :
      ClockReplacer).frameHolder.getD 0 NO_FRAME = NO_FRAME := by
  have h1 := (C10_newPage_alloc_fail failAllocDisk pool2 "Exceeded max page." rfl).1 1 [] rfl
  have h2 := (C10_newPage_alloc_fail failAllocDisk cexPool "Exceeded max page." rfl).2 0
    { size := usizeSub1 1, last := 0, frameHolder := [NO_FRAME] } rfl rfl (by decide)
  exact ⟨h1, h2.1, h2.2⟩

/-! ## Bit-level helpers for the block-page bitmap -/

theorem lor_mask255 (x : Nat) (hx : x < 256) : x ||| 255 = 255 := by
  apply Nat.eq_of_testBit_eq
  intro i
  rw [Nat.testBit_lor]
  by_cases hi : i < 8
  · have h255 : Nat.testBit 255 i = true := by interval_cases i <;> decide
    simp [h255]
  · have h255 : Nat.testBit 255 i = false :=
      Nat.testBit_lt_two_pow (by calc (255 : Nat) < 2 ^ 8 := by norm_num
                                   _ ≤ 2 ^ i := Nat.pow_le_pow_right (by norm_num) (by omega))
    have hxi : Nat.testBit x i = false :=
      Nat.testBit_lt_two_pow (by calc x < 2 ^ 8 := hx
                                   _ ≤ 2 ^ i := Nat.pow_le_pow_right (by norm_num) (by omega))
    simp [h255, hxi]

theorem or_set_bit (x b : Nat) (hx : x < 256) (hb : b < 8) :
    (x ||| (1 <<< b)) ||| (255 - (1 <<< b)) = 255 := by
  rw [Nat.lor_assoc]
  have hkey : (1 <<< b) ||| (255 - (1 <<< b)) = 255 := by interval_cases b <;> decide
  rw [hkey, lor_mask255 x hx]

theorem or_other_bit (x b1 b2 : Nat) (h1 : b1 < 8) (h2 : b2 < 8) (hne : b1 ≠ b2) :
    (x ||| (1 <<< b1)) ||| (255 - (1 <<< b2)) = x ||| (255 - (1 <<< b2)) := by
  rw [Nat.lor_assoc]
  have hkey : (1 <<< b1) ||| (255 - (1 <<< b2)) = 255 - (1 <<< b2) := by
    interval_cases b1 <;> interval_cases b2 <;> first | (exact absurd rfl hne) | decide
  rw [hkey]

/-! ## Claim C7: block insert and the readable bitmap -/

/-- Counterexample to C7: a successful insert into a fresh block sets the
occupied bit but leaves the readable bitmap all-zero, so the two bitmaps are
not written symmetrically and differ afterwards. -/
theorem C7_counterexample :
    ((HashTableBlockPage.new 10 20).insert 0 fakeKey1 fakeVal1).1 = true ∧
    ((HashTableBlockPage.new 10 20).insert 0 fakeKey1 fakeVal1).2.readable
      = List.replicate 17 0 ∧
    ((HashTableBlockPage.new 10 20).insert 0 fakeKey1 fakeVal1).2.occupied
      ≠ ((HashTableBlockPage.new 10 20).insert 0 fakeKey1 fakeVal1).2.readable := by
  refine ⟨rfl, rfl, ?_⟩
  decide

/-- Claim C7 as amended: a successful insert at slot `i` sets bit `i` in the
occupied bitmap only, leaving every other occupied bit and the whole readable
bitmap unchanged; consequently after any sequence of inserts the readable
bitmap still equals its initial value (all-zero for a fresh block), not the
occupied bitmap. -/
theorem C7_insert_amended (b : HashTableBlockPage) (slot : Nat) (k v : List Nat)
    (hocc : b.isOccupied slot = false)
    (hbyte : slot / 8 < b.occupied.length)
    (hbytes : ∀ y ∈ b.occupied, y < 256) :
    ((b.insert slot k v).1 = true ∧
     (b.insert slot k v).2.readable = b.readable ∧
     (b.insert slot k v).2.array = b.array.set slot (k, v) ∧
     (b.insert slot k v).2.isOccupied slot = true ∧
     (∀ j, j ≠ slot → (b.insert slot k v).2.isOccupied j = b.isOccupied j)) ∧
    (∀ (bb : HashTableBlockPage) (ops : List (Nat × List Nat × List Nat)),
      (insertSeq bb ops).readable = bb.readable) := by
  constructor
  · have hstep : b.insert slot k v =
        (true, HashTableBlockPage.setOccupiedBit { b with array := b.array.set slot (k, v) }
          slot) := by
      simp only [HashTableBlockPage.insert, hocc, Bool.false_eq_true, if_false]
    rw [hstep]
    have hx : b.occupied.getD (slot / 8) 0 < 256 := by
      rw [getD_lt_eq_getElem _ _ _ hbyte]
      exact hbytes _ (b.occupied.getElem_mem hbyte)
    refine ⟨rfl, rfl, rfl, ?_, ?_⟩
    · simp only [HashTableBlockPage.isOccupied, HashTableBlockPage.setOccupiedBit]
      rw [getD_set_same _ _ _ _ hbyte, beq_iff_eq]
      exact or_set_bit _ _ hx (Nat.mod_lt slot (by norm_num))
    · intro j hj
      simp only [HashTableBlockPage.isOccupied, HashTableBlockPage.setOccupiedBit]
      by_cases hbyteq : j / 8 = slot / 8
      · have hbit : slot % 8 ≠ j % 8 := by omega
        rw [hbyteq, getD_set_same _ _ _ _ hbyte,
          or_other_bit _ _ _ (Nat.mod_lt slot (by norm_num)) (Nat.mod_lt j (by norm_num)) hbit]
      · rw [getD_set_other _ _ _ (fun h => hbyteq h.symm)]
  · intro bb ops
    induction ops generalizing bb with
    | nil => rfl
    | cons op rest ih =>
      obtain ⟨s, k', v'⟩ := op
      show (insertSeq (bb.insert s k' v').2 rest).readable = _
      rw [ih]
      cases hov : bb.isOccupied s
      · simp [HashTableBlockPage.insert, hov, HashTableBlockPage.setOccupiedBit]
      · simp [HashTableBlockPage.insert, hov]

/-- Witness for the amended C7: inserting into a fresh block returns `true`,
preserves the all-zero readable bitmap and sets the occupied bit. -/
theorem C7_insert_amended_witness :
    ((HashTableBlockPage.new 10 20).insert 0 fakeKey1 fakeVal1).1 = true ∧
    ((HashTableBlockPage.new 10 20).insert 0 fakeKey1 fakeVal1).2.readable
      = (HashTableBlockPage.new 10 20).readable ∧
    ((HashTableBlockPage.new 10 20).insert 0 fakeKey1 fakeVal1).2.isOccupied 0 = true := by
  have h := (C7_insert_amended (HashTableBlockPage.new 10 20) 0 fakeKey1 fakeVal1
    (by decide) (by decide) (by decide)).1
  exact ⟨h.1, h.2.1, h.2.2.2.1⟩

/-! ## Claim C3: block serialize/deserialize round trip -/

/-- Claim C3, exhibited as a code bug: for a block whose last slot
(`capacity_of_block() - 1 = 134`) is occupied, `deserialize ∘ serialize`
preserves both bitmaps (so the slot still reads as occupied) but loses the
mapping cell of the last slot — the deserialize loop's upper bound
`(page_data.len()/mapping_type_size - 1) * mapping_type_size` stops one cell
short, so slot 134 comes back as the default mapping instead of the stored
pair. -/
theorem C3_roundtrip_last_slot_bug :
    c3RoundTrip = HashTableBlockPage.deserialize 10 20 c3Block.serialize ∧
    c3RoundTrip.occupied = c3Block.occupied ∧
    c3RoundTrip.readable = c3Block.readable ∧
    c3Block.isOccupied 134 = true ∧
    c3RoundTrip.isOccupied 134 = true ∧
    HashTableBlockPage.get 10 20 c3Block 134 = (fakeKey1, fakeVal1) ∧
    HashTableBlockPage.get 10 20 c3RoundTrip 134 = HashTableBlockPage.defaultMapping 10 20 ∧
    (fakeKey1, fakeVal1) ≠ HashTableBlockPage.defaultMapping 10 20 := by
  have hdm : HashTableBlockPage.defaultMapping 10 20
      = (List.replicate 10 0, List.replicate 20 0) := rfl
  have harr : c3Block.array
      = (List.replicate 135 (HashTableBlockPage.defaultMapping 10 20)).set 134
          (fakeKey1, fakeVal1) := rfl
  have harr2 : c3Block.array
      = List.replicate 134 (List.replicate 10 0, List.replicate 20 0)
          ++ [(fakeKey1, fakeVal1)] := by
    rw [harr, hdm]
    exact set_replicate_last 134 _ _
  have hser : c3Block.serialize
      = c3Block.occupied ++ c3Block.readable
          ++ (List.replicate 4020 0 ++ (fakeKey1 ++ fakeVal1 ++ [])) := by
    show c3Block.occupied ++ c3Block.readable
        ++ List.foldr (fun c acc => c.1 ++ c.2 ++ acc) [] c3Block.array = _
    rw [harr2, List.foldr_append,
      show List.foldr (fun (c : MappingType) acc => c.1 ++ c.2 ++ acc) []
          [(fakeKey1, fakeVal1)] = fakeKey1 ++ fakeVal1 ++ [] from rfl,
      foldr_mapping_zero 10 20 134 (fakeKey1 ++ fakeVal1 ++ [])]
  have hlo : c3Block.occupied.length = 17 := by decide
  have hlr : c3Block.readable.length = 17 := by decide
  have hk : fakeKey1.length = 10 := by decide
  have hv : fakeVal1.length = 20 := by decide
  have hlen : c3Block.serialize.length = 4084 := by
    rw [hser]
    simp only [List.length_append, List.length_replicate, List.length_nil, hlo, hlr, hk, hv]
  have habs : HashTableBlockPage.arrayBitSize 10 20 = 17 := by
    norm_num [HashTableBlockPage.arrayBitSize, HashTableBlockPage.capacityOfBlock, PAGE_SIZE]
  have hocc' : c3RoundTrip.occupied = c3Block.occupied := by
    show (HashTableBlockPage.deserialize 10 20 c3Block.serialize).occupied = _
    simp only [HashTableBlockPage.deserialize, habs]
    rw [hser, List.append_assoc]
    exact List.take_left' hlo
  have hread' : c3RoundTrip.readable = c3Block.readable := by
    show (HashTableBlockPage.deserialize 10 20 c3Block.serialize).readable = _
    simp only [HashTableBlockPage.deserialize, habs]
    rw [hser, List.append_assoc, List.drop_left' hlo]
    exact List.take_left' hlr
  have hN : HashTableBlockPage.numCells 10 20 c3Block.serialize.length = 134 := by
    rw [hlen]
    norm_num [HashTableBlockPage.numCells, habs]
  have hoccb : c3Block.isOccupied 134 = true := by decide
  have hget : HashTableBlockPage.get 10 20 c3Block 134 = (fakeKey1, fakeVal1) := by
    show c3Block.array.getD 134 _ = _
    rw [harr]
    exact getD_set_same _ _ _ _ (by simp)
  have hget' : HashTableBlockPage.get 10 20 c3RoundTrip 134
      = HashTableBlockPage.defaultMapping 10 20 := by
    show (HashTableBlockPage.deserialize 10 20 c3Block.serialize).array.getD 134 _ = _
    simp only [HashTableBlockPage.deserialize, HashTableBlockPage.deserializeCells, hN]
    rw [getD_foldl_set_range_ge _ _ 134 _ 134 (le_refl 134)]
    exact getD_replicate_lt _ _
      (by norm_num [HashTableBlockPage.capacityOfBlock, PAGE_SIZE])
  refine ⟨rfl, hocc', hread', hoccb, ?_, hget, hget', by decide⟩
  show ((c3RoundTrip.occupied.getD (134 / 8) 0 ||| (255 - (1 <<< (134 % 8)))) == 255) = true
  rw [hocc']
  exact hoccb

/-! ## Serialization toolkit -/

theorem encodeU64_length (a : Nat) : (encodeU64 a).length = 8 := rfl

theorem decodeU64_encodeU64 (a : Nat) : decodeU64 (encodeU64 a) = a % U64 := by
  simp only [decodeU64, encodeU64, List.foldr]
  unfold U64
  omega

theorem decodeU64_encodeU64_lt (a : Nat) (h : a < U64) : decodeU64 (encodeU64 a) = a := by
  rw [decodeU64_encodeU64, Nat.mod_eq_of_lt h]

theorem encodeU64_INVALID : encodeU64 INVALID_PAGE_ID = List.replicate 8 255 := by decide

theorem decodeU64_rep255 : decodeU64 (List.replicate 8 255) = INVALID_PAGE_ID := by decide

theorem foldr_encode_replicate : ∀ (n : Nat) (acc : List Nat),
    List.foldr (fun pid acc => encodeU64 pid ++ acc) acc (List.replicate n INVALID_PAGE_ID)
      = List.replicate (8 * n) 255 ++ acc := by
  intro n
  induction n with
  | zero => intro acc; simp
  | succ n ih =>
    intro acc
    show encodeU64 INVALID_PAGE_ID ++ _ = _
    rw [ih acc, encodeU64_INVALID, show 8 * (n + 1) = 8 + 8 * n by ring]
    conv_rhs => rw [List.replicate_add, List.append_assoc]

theorem drop_prefix_append {α : Type} (l rest : List α) (m n : Nat) (hl : l.length = m) :
    (l ++ rest).drop (m + n) = rest.drop n := by
  rw [List.drop_append_eq_append_drop, List.drop_eq_nil_of_le (by omega), hl,
    List.nil_append, show m + n - m = n by omega]

theorem take_replicate_of_le {α : Type} (a : α) (n m : Nat) (h : n ≤ m) :
    (List.replicate m a).take n = List.replicate n a := by
  rw [List.take_replicate]
  congr 1
  omega

theorem zeroPage_length : zeroPage.length = 4096 := by
  rw [zeroPage, List.length_replicate]
  rfl

theorem overwrite_full (old bytes : List Nat) (h : old.length ≤ bytes.length) :
    overwrite old bytes = bytes := by
  rw [overwrite, List.drop_eq_nil_of_le h, List.append_nil]

theorem overwrite_zeroPage_partial (bytes : List Nat) (h : bytes.length = 4084) :
    overwrite zeroPage bytes = bytes ++ List.replicate 12 0 := by
  rw [overwrite, h, zeroPage, List.drop_replicate, show PAGE_SIZE - 4084 = 12 from rfl]

/-! ## Header page serialization lemmas -/

theorem header_serialize_set0 (p s n e : Nat) :
    ({ pageId := p, size := s, nextIdx := n,
       blockPageIds := (List.replicate BLOCK_PAGE_IDS_SIZE INVALID_PAGE_ID).set 0 e } :
       HashTableHeaderPage).serialize
      = encodeU64 p ++ (encodeU64 s ++ (encodeU64 n
          ++ (encodeU64 e ++ List.replicate 4064 255))) := by
  show encodeU64 p ++ encodeU64 s ++ encodeU64 n ++ List.foldr _ []
      ((List.replicate BLOCK_PAGE_IDS_SIZE INVALID_PAGE_ID).set 0 e) = _
  rw [show (List.replicate BLOCK_PAGE_IDS_SIZE INVALID_PAGE_ID).set 0 e
      = e :: List.replicate 508 INVALID_PAGE_ID from rfl,
    show List.foldr (fun pid acc => encodeU64 pid ++ acc) []
        (e :: List.replicate 508 INVALID_PAGE_ID)
      = encodeU64 e ++ List.foldr (fun pid acc => encodeU64 pid ++ acc) []
        (List.replicate 508 INVALID_PAGE_ID) from rfl,
    foldr_encode_replicate 508 []]
  rw [List.append_nil, show 8 * 508 = 4064 from rfl, List.append_assoc, List.append_assoc]

theorem header_serialize_set0_length (p s n e : Nat) :
    ({ pageId := p, size := s, nextIdx := n,
       blockPageIds := (List.replicate BLOCK_PAGE_IDS_SIZE INVALID_PAGE_ID).set 0 e } :
       HashTableHeaderPage).serialize.length = 4096 := by
  rw [header_serialize_set0, List.length_append, List.length_append, List.length_append,
    List.length_append, encodeU64_length, encodeU64_length, encodeU64_length,
    encodeU64_length, List.length_replicate]

theorem header_deserialize_set0 (p s n e : Nat)
    (hp : p < U64) (hs : s < U64) (hn : n < U64) (he : e < U64) :
    HashTableHeaderPage.deserialize
      (encodeU64 p ++ (encodeU64 s ++ (encodeU64 n
        ++ (encodeU64 e ++ List.replicate 4064 255))))
      = some { pageId := p, size := s, nextIdx := n,
               blockPageIds := (List.replicate BLOCK_PAGE_IDS_SIZE INVALID_PAGE_ID).set 0 e } := by
  set data := encodeU64 p ++ (encodeU64 s ++ (encodeU64 n
    ++ (encodeU64 e ++ List.replicate 4064 255))) with hdata
  have hlen : data.length = 4096 := by
    rw [hdata, List.length_append, List.length_append, List.length_append,
      List.length_append, encodeU64_length, encodeU64_length, encodeU64_length,
      encodeU64_length, List.length_replicate]
  have hd8 : data.drop 8 = encodeU64 s ++ (encodeU64 n
      ++ (encodeU64 e ++ List.replicate 4064 255)) := by
    rw [hdata, show (8 : Nat) = 8 + 0 from rfl,
      drop_prefix_append _ _ 8 0 (encodeU64_length p), List.drop_zero]
  have hd16 : data.drop 16 = encodeU64 n ++ (encodeU64 e ++ List.replicate 4064 255) := by
    rw [hdata, show (16 : Nat) = 8 + 8 from rfl,
      drop_prefix_append _ _ 8 8 (encodeU64_length p),
      show (8 : Nat) = 8 + 0 from rfl,
      drop_prefix_append _ _ 8 0 (encodeU64_length s), List.drop_zero]
  have hd24 : ∀ j, data.drop (24 + j) = (encodeU64 e ++ List.replicate 4064 255).drop j := by
    intro j
    rw [hdata, show 24 + j = 8 + (8 + (8 + j)) by ring,
      drop_prefix_append _ _ 8 _ (encodeU64_length p),
      drop_prefix_append _ _ 8 _ (encodeU64_length s),
      drop_prefix_append _ _ 8 _ (encodeU64_length n)]
  have hids : HashTableHeaderPage.headerIds data
      = (List.replicate BLOCK_PAGE_IDS_SIZE INVALID_PAGE_ID).set 0 e := by
    show (List.range (HashTableHeaderPage.headerNumIds data.length)).foldl _ _ = _
    rw [hlen, show HashTableHeaderPage.headerNumIds 4096 = 508 from rfl]
    refine foldl_set_range_single _ INVALID_PAGE_ID 0 e 508 _ (by norm_num)
      (by rw [List.length_replicate]; norm_num [BLOCK_PAGE_IDS_SIZE, PAGE_SIZE]) ?_ ?_
    · show decodeU64 ((data.drop (24 + 8 * 0)).take 8) = e
      rw [show 24 + 8 * 0 = 24 + 0 from rfl, hd24 0, List.drop_zero,
        List.take_left' (encodeU64_length e), decodeU64_encodeU64_lt e he]
    · intro k hk hk0
      show decodeU64 ((data.drop (24 + 8 * k)).take 8)
        = (List.replicate BLOCK_PAGE_IDS_SIZE INVALID_PAGE_ID).getD k INVALID_PAGE_ID
      rw [hd24 (8 * k),
        show 8 * k = 8 + 8 * (k - 1) by omega,
        drop_prefix_append _ _ 8 _ (encodeU64_length e),
        List.drop_replicate,
        take_replicate_of_le _ 8 _ (by omega),
        decodeU64_rep255,
        getD_replicate_lt _ _ (show k < BLOCK_PAGE_IDS_SIZE by
          norm_num [BLOCK_PAGE_IDS_SIZE, PAGE_SIZE]; omega)]
  show HashTableHeaderPage.deserialize data = _
  rw [HashTableHeaderPage.deserialize, if_neg (by rw [hlen]; norm_num [PAGE_SIZE]), hids,
    show data.take 8 = encodeU64 p by rw [hdata]; exact List.take_left' (encodeU64_length p),
    decodeU64_encodeU64_lt p hp, hd8, List.take_left' (encodeU64_length s),
    decodeU64_encodeU64_lt s hs, hd16, List.take_left' (encodeU64_length n),
    decodeU64_encodeU64_lt n hn]

/-! ## Block page deserialization lemmas -/

theorem deserializeCells_zeros (A tail : List Nat) (hA : A.length = 34)
    (hN : HashTableBlockPage.numCells 10 20
      (A ++ (List.replicate 4020 0 ++ tail)).length = 134) :
    HashTableBlockPage.deserializeCells 10 20 (A ++ (List.replicate 4020 0 ++ tail))
      = List.replicate 135 (HashTableBlockPage.defaultMapping 10 20) := by
  have hdrop : ∀ j, (A ++ (List.replicate 4020 0 ++ tail)).drop (34 + j)
      = (List.replicate 4020 0 ++ tail).drop j := fun j => drop_prefix_append A _ 34 j hA
  show (List.range (HashTableBlockPage.numCells 10 20 _)).foldl _ _ = _
  rw [hN, show HashTableBlockPage.capacityOfBlock 10 20 = 135 from rfl]
  refine foldl_set_range_id _ (HashTableBlockPage.defaultMapping 10 20) 134 _
    (by rw [List.length_replicate]; omega) ?_
  intro k hk
  rw [getD_replicate_lt _ _ (by omega)]
  show HashTableBlockPage.decodeMapping 10 20
    (2 * HashTableBlockPage.arrayBitSize 10 20 + k * (10 + 20)) _ = _
  rw [HashTableBlockPage.decodeMapping,
    show 2 * HashTableBlockPage.arrayBitSize 10 20 = 34 from rfl,
    show (10 + 20 : Nat) = 30 from rfl]
  have hkey : ((A ++ (List.replicate 4020 0 ++ tail)).drop (34 + k * 30)).take 10
      = List.replicate 10 0 := by
    rw [hdrop (k * 30), List.drop_append_eq_append_drop, List.drop_replicate,
      List.length_replicate, show k * 30 - 4020 = 0 by omega, List.drop_zero,
      List.take_append_eq_append_take, take_replicate_of_le _ 10 _ (by omega),
      List.length_replicate, show 10 - (4020 - k * 30) = 0 by omega, List.take_zero,
      List.append_nil]
  have hval : ((A ++ (List.replicate 4020 0 ++ tail)).drop (34 + k * 30 + 10)).take 20
      = List.replicate 20 0 := by
    rw [show 34 + k * 30 + 10 = 34 + (k * 30 + 10) by ring, hdrop (k * 30 + 10),
      List.drop_append_eq_append_drop, List.drop_replicate,
      List.length_replicate, show k * 30 + 10 - 4020 = 0 by omega, List.drop_zero,
      List.take_append_eq_append_take, take_replicate_of_le _ 20 _ (by omega),
      List.length_replicate, show 20 - (4020 - (k * 30 + 10)) = 0 by omega, List.take_zero,
      List.append_nil]
  rw [hkey, hval]
  rfl

/-- A scan over a region in which every slot is occupied and no stored pair
matches ends in `NotFound`. -/
theorem findSlotFrom_notFound (ks vs : Nat) (block : HashTableBlockPage)
    (k v : List Nat) : ∀ (rem i : Nat),
    (∀ j, i ≤ j → j < i + rem → block.isOccupied j = true ∧
      HashTableBlockPage.get ks vs block j ≠ (k, v)) →
    LinearProbeHashTable.findSlotFrom ks vs block k v i rem = FindSlotResult.NotFound := by
  intro rem
  induction rem with
  | zero => intro i _; rfl
  | succ r ih =>
    intro i h
    have hi := h i (Nat.le_refl i) (by omega)
    rw [LinearProbeHashTable.findSlotFrom, if_neg (by rw [hi.1]; simp),
      if_neg hi.2]
    exact ih (i + 1) (fun j h1 h2 => h j (by omega) (by omega))

/-! ## Claim C4: insert on a full table never terminates -/

theorem c4_getHeader : LinearProbeHashTable.getHeader c4Store 0 = some c4Header := by
  have hser : c4Header.serialize = encodeU64 0 ++ (encodeU64 1 ++ (encodeU64 1
      ++ (encodeU64 1 ++ List.replicate 4064 255))) := header_serialize_set0 0 1 1 1
  have hserlen : c4Header.serialize.length = 4096 := header_serialize_set0_length 0 1 1 1
  show HashTableHeaderPage.deserialize (c4Store.getPage 0) = _
  rw [show c4Store.getPage 0 = overwrite zeroPage c4Header.serialize from rfl,
    overwrite_full _ _ (by rw [zeroPage_length, hserlen]), hser,
    header_deserialize_set0 0 1 1 1 (by norm_num [U64]) (by norm_num [U64])
      (by norm_num [U64]) (by norm_num [U64])]
  rfl

theorem c4_getBlock : LinearProbeHashTable.getBlock 10 20 c4Store 1
    = { occupied := List.replicate 17 255, readable := List.replicate 17 0,
        array := List.replicate 135 (HashTableBlockPage.defaultMapping 10 20) } := by
  have hserB : c4FullBlock.serialize
      = List.replicate 17 255 ++ List.replicate 17 0 ++ List.replicate 4050 0 := by
    show List.replicate 17 255 ++ List.replicate 17 0
        ++ List.foldr (fun c acc => c.1 ++ c.2 ++ acc) [] c4FullBlock.array = _
    rw [show c4FullBlock.array
        = List.replicate 135 (List.replicate 10 0, List.replicate 20 0) from rfl,
      foldr_mapping_zero 10 20 135 [], List.append_nil,
      show 135 * (10 + 20) = 4050 from rfl]
  have hserBlen : c4FullBlock.serialize.length = 4084 := by
    rw [hserB, List.length_append, List.length_append, List.length_replicate,
      List.length_replicate, List.length_replicate]
  have hdata : c4Store.getPage 1
      = (List.replicate 17 255 ++ List.replicate 17 0)
          ++ (List.replicate 4020 0 ++ (List.replicate 30 0 ++ List.replicate 12 0)) := by
    rw [show c4Store.getPage 1 = overwrite zeroPage c4FullBlock.serialize from rfl,
      overwrite_zeroPage_partial _ hserBlen, hserB,
      show (4050 : Nat) = 4020 + 30 from rfl, List.replicate_add]
    simp only [List.append_assoc]
  have hlenData : (c4Store.getPage 1).length = 4096 := by
    rw [hdata, List.length_append, List.length_append, List.length_append,
      List.length_append, List.length_replicate, List.length_replicate,
      List.length_replicate, List.length_replicate, List.length_replicate]
  show HashTableBlockPage.deserialize 10 20 (c4Store.getPage 1) = _
  rw [HashTableBlockPage.deserialize,
    show HashTableBlockPage.arrayBitSize 10 20 = 17 from rfl]
  have hocc : (c4Store.getPage 1).take 17 = List.replicate 17 255 := by
    rw [hdata, List.append_assoc, List.take_left' (by rw [List.length_replicate])]
  have hread : ((c4Store.getPage 1).drop 17).take 17 = List.replicate 17 0 := by
    rw [hdata, List.append_assoc, List.drop_left' (by rw [List.length_replicate]),
      List.take_left' (by rw [List.length_replicate])]
  have hcells : HashTableBlockPage.deserializeCells 10 20 (c4Store.getPage 1)
      = List.replicate 135 (HashTableBlockPage.defaultMapping 10 20) := by
    rw [hdata]
    exact deserializeCells_zeros _ _
      (by rw [List.length_append, List.length_replicate, List.length_replicate])
      (by rw [← hdata, hlenData]; rfl)
  rw [hocc, hread, hcells]

theorem c4_findSlot : LinearProbeHashTable.findAvailableSlot 10 20 c4Store fakeKey1
    fakeVal1 1 0 = FindSlotResult.NotFound := by
  show LinearProbeHashTable.findSlotFrom 10 20 (LinearProbeHashTable.getBlock 10 20 c4Store 1)
    fakeKey1 fakeVal1 0 (HashTableBlockPage.capacityOfBlock 10 20 - 0) = _
  rw [c4_getBlock, show HashTableBlockPage.capacityOfBlock 10 20 - 0 = 135 from rfl]
  apply findSlotFrom_notFound
  intro j _ hj
  constructor
  · show ((List.replicate 17 255).getD (j / 8) 0 ||| (255 - (1 <<< (j % 8))) == 255) = true
    rw [getD_replicate_lt _ _ (by omega), beq_iff_eq, Nat.lor_comm]
    exact lor_mask255 _ (Nat.lt_succ_of_le (Nat.sub_le _ _))
  · show (List.replicate 135 (HashTableBlockPage.defaultMapping 10 20)).getD j
      (HashTableBlockPage.defaultMapping 10 20) ≠ (fakeKey1, fakeVal1)
    rw [getD_replicate_lt _ _ (by omega)]
    decide

/-- Claim C4, exhibited as a code bug: on a one-bucket table whose only block
is completely full and holds no duplicate of the key, `insert` never returns,
no matter how many loop iterations it is allowed — the
"temporary ignore hash table all fulled" loop has no exit for a full table,
where the claim (and the spec) requires it to stop and report the table
full. -/
theorem C4_full_table_insert_diverges :
    ∀ fuel, LinearProbeHashTable.insert 10 20 hashZero fuel c4Store 0 fakeKey1 fakeVal1
      = none := by
  have hdir : c4Header.getBlockPageId 0 = some 1 := by
    show (if c4Header.blockPageIds.getD 0 INVALID_PAGE_ID = INVALID_PAGE_ID then none
      else some (c4Header.blockPageIds.getD 0 INVALID_PAGE_ID)) = _
    rw [show c4Header.blockPageIds = (List.replicate BLOCK_PAGE_IDS_SIZE
        INVALID_PAGE_ID).set 0 1 from rfl,
      getD_set_same _ _ _ _ (by rw [List.length_replicate]; norm_num [BLOCK_PAGE_IDS_SIZE,
        PAGE_SIZE]),
      if_neg (by norm_num [INVALID_PAGE_ID, U64])]
  have hloop : ∀ fuel, LinearProbeHashTable.tryInsertLoop 10 20 fakeKey1 fakeVal1 fuel
      c4Store c4Header 0 0 = none := by
    intro fuel
    induction fuel with
    | zero => rfl
    | succ f ih =>
      rw [LinearProbeHashTable.tryInsertLoop, hdir]
      simp only [c4_findSlot]
      rw [if_pos (show 0 + 1 = c4Header.size from rfl)]
      exact ih
  intro fuel
  rw [LinearProbeHashTable.insert, c4_getHeader]
  simp only [hashZero, Nat.zero_mod, Nat.zero_div, Nat.zero_mul, Nat.sub_self]
  exact hloop fuel

/-! ## Claim C6: double insert of the same pair -/

theorem c6_hser0 : (HashTableHeaderPage.new 0 2).serialize
    = encodeU64 0 ++ (encodeU64 2 ++ (encodeU64 0
        ++ (encodeU64 INVALID_PAGE_ID ++ List.replicate 4064 255))) :=
  header_serialize_set0 0 2 0 INVALID_PAGE_ID

theorem c6_hserlen0 : (HashTableHeaderPage.new 0 2).serialize.length = 4096 :=
  header_serialize_set0_length 0 2 0 INVALID_PAGE_ID

theorem c6_hser1 : ((HashTableHeaderPage.new 0 2).setBlockPageId 1 0).serialize
    = encodeU64 0 ++ (encodeU64 2 ++ (encodeU64 0
        ++ (encodeU64 1 ++ List.replicate 4064 255))) :=
  header_serialize_set0 0 2 0 1

theorem c6_hserlen1 : ((HashTableHeaderPage.new 0 2).setBlockPageId 1 0).serialize.length
    = 4096 :=
  header_serialize_set0_length 0 2 0 1

theorem c6_getHeader0 : LinearProbeHashTable.getHeader c6Store0 0
    = some (HashTableHeaderPage.new 0 2) := by
  show HashTableHeaderPage.deserialize (c6Store0.getPage 0) = _
  rw [show c6Store0.getPage 0
      = overwrite zeroPage (HashTableHeaderPage.new 0 2).serialize from rfl,
    overwrite_full _ _ (by rw [zeroPage_length, c6_hserlen0]), c6_hser0,
    header_deserialize_set0 0 2 0 INVALID_PAGE_ID (by norm_num [U64]) (by norm_num [U64])
      (by norm_num [U64]) (by norm_num [INVALID_PAGE_ID, U64])]
  rfl

theorem c6_dir0_none : (HashTableHeaderPage.new 0 2).getBlockPageId 0 = none := rfl

theorem c6_step0 : ∀ f : Nat, LinearProbeHashTable.tryInsertLoop 10 20 fakeKey1 fakeVal1
    (f + 1) c6Store0 (HashTableHeaderPage.new 0 2) 0 134 = some (true, c6S1raw) := by
  intro f
  rw [LinearProbeHashTable.tryInsertLoop, c6_dir0_none]
  rfl

theorem c6_insert1_eq : c6Insert1 = some (true, c6S1raw) := by
  show LinearProbeHashTable.insert 10 20 hash134 2 c6Store0 0 fakeKey1 fakeVal1 = _
  rw [LinearProbeHashTable.insert, c6_getHeader0]
  simp only [hash134, show (HashTableHeaderPage.new 0 2).size = 2 from rfl,
    show HashTableBlockPage.capacityOfBlock 10 20 = 135 from rfl,
    show (134 : Nat) % (2 * 135) = 134 from by norm_num,
    show (134 : Nat) / 135 = 0 from by norm_num,
    show (134 : Nat) - 0 * 135 = 134 from by norm_num]
  exact c6_step0 1

theorem c6_store1_eq : c6Store1 = c6S1raw := by
  unfold c6Store1
  rw [c6_insert1_eq]

theorem c6_getHeader1 : LinearProbeHashTable.getHeader c6S1raw 0
    = some ((HashTableHeaderPage.new 0 2).setBlockPageId 1 0) := by
  show HashTableHeaderPage.deserialize (c6S1raw.getPage 0) = _
  rw [show c6S1raw.getPage 0
      = overwrite (overwrite zeroPage (HashTableHeaderPage.new 0 2).serialize)
          ((HashTableHeaderPage.new 0 2).setBlockPageId 1 0).serialize from rfl,
    overwrite_full _ _ (by
      rw [overwrite_full _ _ (by rw [zeroPage_length, c6_hserlen0]), c6_hserlen0,
        c6_hserlen1]),
    c6_hser1,
    header_deserialize_set0 0 2 0 1 (by norm_num [U64]) (by norm_num [U64])
      (by norm_num [U64]) (by norm_num [U64])]
  rfl

theorem c6_dir1_0 : ((HashTableHeaderPage.new 0 2).setBlockPageId 1 0).getBlockPageId 0
    = some 1 := rfl

theorem c6_dir1_1 : ((HashTableHeaderPage.new 0 2).setBlockPageId 1 0).getBlockPageId (0 + 1)
    = none := rfl

theorem c6_c3ser : c3Block.serialize = c3Block.occupied ++ c3Block.readable
    ++ (List.replicate 4020 0 ++ (fakeKey1 ++ fakeVal1 ++ [])) := by
  have harr2 : c3Block.array
      = List.replicate 134 (List.replicate 10 0, List.replicate 20 0)
          ++ [(fakeKey1, fakeVal1)] := by
    rw [show c3Block.array = (List.replicate 135 (HashTableBlockPage.defaultMapping 10 20)).set
        134 (fakeKey1, fakeVal1) from rfl,
      show HashTableBlockPage.defaultMapping 10 20
        = (List.replicate 10 0, List.replicate 20 0) from rfl]
    exact set_replicate_last 134 _ _
  show c3Block.occupied ++ c3Block.readable
      ++ List.foldr (fun c acc => c.1 ++ c.2 ++ acc) [] c3Block.array = _
  rw [harr2, List.foldr_append,
    show List.foldr (fun (c : MappingType) acc => c.1 ++ c.2 ++ acc) []
        [(fakeKey1, fakeVal1)] = fakeKey1 ++ fakeVal1 ++ [] from rfl,
    foldr_mapping_zero 10 20 134 (fakeKey1 ++ fakeVal1 ++ [])]

theorem c6_c3occ : c3Block.occupied.length = 17 := by decide

theorem c6_c3read : c3Block.readable.length = 17 := by decide

theorem c6_c3serlen : c3Block.serialize.length = 4084 := by
  rw [c6_c3ser]
  simp only [List.length_append, List.length_replicate, List.length_nil, c6_c3occ, c6_c3read,
    show fakeKey1.length = 10 from by decide, show fakeVal1.length = 20 from by decide]

theorem c6_page1_data : c6S1raw.getPage 1 = c3Block.occupied ++ c3Block.readable
    ++ (List.replicate 4020 0 ++ ((fakeKey1 ++ fakeVal1 ++ []) ++ List.replicate 12 0)) := by
  rw [show c6S1raw.getPage 1 = overwrite zeroPage c3Block.serialize from rfl,
    overwrite_zeroPage_partial _ c6_c3serlen, c6_c3ser]
  simp only [List.append_assoc]

theorem c6_page1_len : (c6S1raw.getPage 1).length = 4096 := by
  rw [show c6S1raw.getPage 1 = overwrite zeroPage c3Block.serialize from rfl,
    overwrite_zeroPage_partial _ c6_c3serlen, List.length_append, c6_c3serlen,
    List.length_replicate]

theorem c6_cells1 : HashTableBlockPage.deserializeCells 10 20 (c6S1raw.getPage 1)
    = List.replicate 135 (HashTableBlockPage.defaultMapping 10 20) := by
  rw [c6_page1_data]
  exact deserializeCells_zeros _ _ (by rw [List.length_append, c6_c3occ, c6_c3read])
    (by rw [← c6_page1_data, c6_page1_len]; rfl)

theorem c6_getBlock1 : LinearProbeHashTable.getBlock 10 20 c6S1raw 1
    = { occupied := c3Block.occupied, readable := c3Block.readable,
        array := List.replicate 135 (HashTableBlockPage.defaultMapping 10 20) } := by
  have hocc : (c6S1raw.getPage 1).take 17 = c3Block.occupied := by
    rw [c6_page1_data, List.append_assoc]
    exact List.take_left' c6_c3occ
  have hread : ((c6S1raw.getPage 1).drop 17).take 17 = c3Block.readable := by
    rw [c6_page1_data, List.append_assoc, List.drop_left' c6_c3occ]
    exact List.take_left' c6_c3read
  show HashTableBlockPage.deserialize 10 20 (c6S1raw.getPage 1) = _
  rw [HashTableBlockPage.deserialize, show HashTableBlockPage.arrayBitSize 10 20 = 17 from rfl,
    hocc, hread, c6_cells1]

theorem c6_findSlot : LinearProbeHashTable.findAvailableSlot 10 20 c6S1raw fakeKey1 fakeVal1
    1 134 = FindSlotResult.NotFound := by
  show LinearProbeHashTable.findSlotFrom 10 20 (LinearProbeHashTable.getBlock 10 20 c6S1raw 1)
    fakeKey1 fakeVal1 134 (HashTableBlockPage.capacityOfBlock 10 20 - 134) = _
  rw [c6_getBlock1, show HashTableBlockPage.capacityOfBlock 10 20 - 134 = 1 from rfl]
  decide

theorem c6_step1 : ∀ f : Nat, LinearProbeHashTable.tryInsertLoop 10 20 fakeKey1 fakeVal1
    (f + 1) c6S1raw ((HashTableHeaderPage.new 0 2).setBlockPageId 1 0) 0 134
    = LinearProbeHashTable.tryInsertLoop 10 20 fakeKey1 fakeVal1 f c6S1raw
        ((HashTableHeaderPage.new 0 2).setBlockPageId 1 0) (0 + 1) 0 := by
  intro f
  rw [LinearProbeHashTable.tryInsertLoop, c6_dir1_0]
  simp only [c6_findSlot]
  rw [if_neg (show ¬((0 : Nat) + 1
    = ((HashTableHeaderPage.new 0 2).setBlockPageId 1 0).size) from by decide)]

theorem c6_step2 : ∀ f : Nat, LinearProbeHashTable.tryInsertLoop 10 20 fakeKey1 fakeVal1
    (f + 1) c6S1raw ((HashTableHeaderPage.new 0 2).setBlockPageId 1 0) (0 + 1) 0
    = some (true, (LinearProbeHashTable.insertToNewBlock 10 20 c6S1raw fakeKey1 fakeVal1
        ((HashTableHeaderPage.new 0 2).setBlockPageId 1 0) (0 + 1) 0).2) := by
  intro f
  rw [LinearProbeHashTable.tryInsertLoop, c6_dir1_1]

theorem c6_insert2_eq : c6Insert2
    = some (true, (LinearProbeHashTable.insertToNewBlock 10 20 c6S1raw fakeKey1 fakeVal1
        ((HashTableHeaderPage.new 0 2).setBlockPageId 1 0) (0 + 1) 0).2) := by
  show LinearProbeHashTable.insert 10 20 hash134 2 c6Store1 0 fakeKey1 fakeVal1 = _
  rw [c6_store1_eq, LinearProbeHashTable.insert, c6_getHeader1]
  simp only [hash134,
    show ((HashTableHeaderPage.new 0 2).setBlockPageId 1 0).size = 2 from rfl,
    show HashTableBlockPage.capacityOfBlock 10 20 = 135 from rfl,
    show (134 : Nat) % (2 * 135) = 134 from by norm_num,
    show (134 : Nat) / 135 = 0 from by norm_num,
    show (134 : Nat) - 0 * 135 = 134 from by norm_num]
  exact (c6_step1 1).trans (c6_step2 0)

/-- Claim C6, exhibited as a code bug: on a fresh two-bucket table, inserting
`(fakeKey1, fakeVal1)` (home slot 134, the last slot of its block) succeeds,
but inserting the exact same pair again ALSO returns `true` instead of the
duplicate result `false`, and it mutates the table: the second call allocates
a fresh block page (`nextPid` goes from 2 to 3) and stores the pair a second
time.  The duplicate check compares against the deserialized block, and
deserialization loses the last slot's cell, so the equal pair is never seen. -/
theorem C6_second_insert_not_duplicate :
    c6Insert1.map Prod.fst = some true ∧
    c6Insert2.map Prod.fst = some true ∧
    c6Store1.nextPid = 2 ∧
    c6Insert2.map (fun r => r.2.nextPid) = some 3 :=
  ⟨by rw [c6_insert1_eq]; rfl, by rw [c6_insert2_eq]; rfl,
   by rw [c6_store1_eq]; rfl, by rw [c6_insert2_eq]; rfl⟩

end MineDB



